import Mathlib

/-!
# goipmi: raw bus-master codec, PMBus telemetry, boot-device sequence

A shallow embedding of `raw.go`, `pmbus.go` and, of `client.go`, the PMBus readers
with their aggregation `GetPMBusInfo` and the boot-device sequence `SetBootDevice`.

Conventions of the embedding
* a Go `byte`/`uint8` is a `Fin 256`; wider machine integers are `Nat` with an
  explicit `% 2 ^ w` wherever the Go operation can wrap;
* a Go `[]byte` and a Go `string` are both `List Byte` (a Go string is a byte
  sequence);
* a Go `float64` result is a rational number: every value the decoders build is
  an integer below `2 ^ 16` times a power of two with exponent in `-32 .. 255`
  (exactly representable or modelled as exact); the legacy decoder divides by
  the decimal constant `0.262`, and there both the constant and the quotient
  are rounded to binary64 by `float64` (round to nearest, ties to even);
* a method with a pointer receiver that mutates it returns the new receiver;
* a run-time panic (index out of range) is the `none` of an `Option`.
-/

namespace Ipmi

/-- A Go `byte`. -/
abbrev Byte := Fin 256

/-- A Go `string`, as its bytes. -/
abbrev GoString := List Byte

/-- The bytes of an ASCII string literal of the source. -/
def lit (s : String) : GoString := s.data.map (fun c => Fin.ofNat c.toNat)

/-- The error values of the package that the embedded code can return:
`ErrShortPacket`, and any other error handed back by the transport. -/
inductive Error where
  | ErrShortPacket
  | transport (code : Nat)
  deriving DecidableEq, Repr

/-! ## raw.go -/

/-- The struct `MasterRequest` of raw.go. -/
structure MasterRequest where
  Bus : Byte
  Addr : Byte
  Data : List Byte
  Rsize : Byte
  deriving DecidableEq, Repr

/-- The struct `MasterResponse` of raw.go (`CompletionCode` is a `uint8`). -/
structure MasterResponse where
  CompletionCode : Byte
  Data : List Byte
  deriving DecidableEq, Repr

/-- Go `make([]byte, n)`: `n` zero bytes. -/
def makeBytes (n : Nat) : List Byte := List.replicate n 0

/-- Go `buf[i] = b` on a slice; `none` when `i` is out of range (panic). -/
def setByte (buf : List Byte) (i : Nat) (b : Byte) : Option (List Byte) :=
  if i < buf.length then some (buf.set i b) else none

/-- Go `copy(buf[off:], src)`: overwrites `min (len buf - off) (len src)` bytes
of `buf` from offset `off` on; `none` when `off > len buf` (the slice
expression panics). -/
def copyFrom (buf : List Byte) (off : Nat) (src : List Byte) : Option (List Byte) :=
  if off ≤ buf.length then
    let n := min (buf.length - off) src.length
    some (buf.take off ++ src.take n ++ buf.drop (off + n))
  else none

/-- `(*MasterRequest).MarshalBinary`, raw.go 19-26. The Go result is
`(buf, nil)`; `none` would be a panic. -/
def MasterRequest.MarshalBinary (r : MasterRequest) : Option (List Byte × Option Error) := do
  let buf := makeBytes (3 + r.Data.length)
  let buf ← setByte buf 0 r.Bus
  let buf ← setByte buf 1 r.Addr
  let buf ← setByte buf 2 r.Rsize
  let buf ← copyFrom buf 3 r.Data
  pure (buf, none)

/-- `(*MasterRequest).UnmarshalBinary`, raw.go 28-37: the receiver after the
call and the returned error. -/
def MasterRequest.UnmarshalBinary (r : MasterRequest) (buf : List Byte) :
    MasterRequest × Option Error :=
  if buf.length < 3 then (r, some Error.ErrShortPacket)
  else
    let r := { r with Bus := buf.getD 0 0 }
    let r := { r with Addr := buf.getD 1 0 }
    let r := { r with Rsize := buf.getD 2 0 }
    let r := { r with Data := buf.drop 3 }
    (r, none)

/-- `(*MasterResponse).MarshalBinary`, raw.go 39-45. -/
def MasterResponse.MarshalBinary (r : MasterResponse) : Option (List Byte × Option Error) := do
  let buf := makeBytes (2 + r.Data.length)
  let buf ← setByte buf 0 r.CompletionCode
  let buf ← setByte buf 1 (Fin.ofNat (r.Data.length % 256))
  let buf ← copyFrom buf 2 r.Data
  pure (buf, none)

/-- `(*MasterResponse).UnmarshalBinary`, raw.go 47-54: the receiver after the
call and the returned error. -/
def MasterResponse.UnmarshalBinary (r : MasterResponse) (buf : List Byte) :
    MasterResponse × Option Error :=
  if buf.length < 2 then (r, some Error.ErrShortPacket)
  else
    let r := { r with CompletionCode := buf.getD 0 0 }
    let r := { r with Data := buf.drop 1 }
    (r, none)

/-! ## pmbus.go -/

/-- Go's standard `strings.Contains(s, substr)`: some position of `s` starts a
copy of `substr`. -/
def stringsContains (s substr : GoString) : Bool :=
  match s with
  | [] => substr.isEmpty
  | c :: cs => substr.isPrefixOf (c :: cs) || stringsContains cs substr

/-- `isSMCOldPower`, pmbus.go 8-10. -/
def isSMCOldPower (pwsModuleNumber : GoString) : Bool :=
  stringsContains pwsModuleNumber (lit "721")

/-- The table `noneStandardSMCPowerSupplies`, pmbus.go 12-25. -/
def noneStandardSMCPowerSupplies : List GoString :=
  [ lit "PWS-721P",
    lit "PWS-703P",
    lit "PWS-704P",
    lit "PWS-1K41P",
    lit "PWS-1K41F",
    lit "PWS-1K21P",
    lit "PWS-1K62P",
    lit "PWS-504P-RR",
    lit "PWS-920P-1R",
    lit "PWS-1K11P" ]

/-- The `for ... range` loop of `checkNoneStandardSMCPowerSupplies`: `true` when
the loop returns early. -/
def checkLoop (pwsModuleNumber : GoString) : List GoString → Bool
  | [] => false
  | powersupply :: rest =>
    if stringsContains pwsModuleNumber powersupply then true
    else checkLoop pwsModuleNumber rest

/-- `checkNoneStandardSMCPowerSupplies`, pmbus.go 28-35. -/
def checkNoneStandardSMCPowerSupplies (pwsModuleNumber : GoString) : Bool :=
  if checkLoop pwsModuleNumber noneStandardSMCPowerSupplies then true
  else decide (pwsModuleNumber = lit "PWS-920P-1R2")

/-- Go `math.Pow(2.0, float64(k))` for an integer `k`: the exact power of two. -/
def pow2 (k : Int) : ℚ := (2 : ℚ) ^ k

/-- Go `int16(x)` of a `uint16` value: reinterpretation in two's complement. -/
def int16 (x : Nat) : Int :=
  if x % 2 ^ 16 < 2 ^ 15 then ((x % 2 ^ 16 : Nat) : Int) else ((x % 2 ^ 16 : Nat) : Int) - 2 ^ 16

/-- Go `int8(x)` of a `uint8` value: reinterpretation in two's complement. -/
def int8 (x : Nat) : Int :=
  if x % 2 ^ 8 < 2 ^ 7 then ((x % 2 ^ 8 : Nat) : Int) else ((x % 2 ^ 8 : Nat) : Int) - 2 ^ 8

/-- Go `uint16(data[1])<<8 + uint16(data[0])` in `w`-bit unsigned arithmetic. -/
def word (w : Nat) (d1 d0 : Byte) : Nat :=
  ((d1.val <<< 8) % 2 ^ w + d0.val) % 2 ^ w

/-- Rounding of a rational to the nearest integer, a tie going to the even
neighbour. -/
def roundHalfEven (x : ℚ) : Int :=
  let f : Int := ⌊x⌋
  let r : ℚ := x - f
  if r < 1 / 2 then f else if 1 / 2 < r then f + 1 else if f % 2 = 0 then f else f + 1

/-- Halving loop behind `floorLog2`: the number of times `n` can be halved
before it drops below 2, at most `fuel` times. -/
def log2Fuel : Nat → Nat → Nat
  | 0, _ => 0
  | fuel + 1, n => if 2 ≤ n then log2Fuel fuel (n / 2) + 1 else 0

/-- The position of the highest set bit of `n` (and 0 for `n = 0`). -/
def floorLog2 (n : Nat) : Nat := log2Fuel n n

/-- The binary exponent of a non-zero rational `x`: the integer `e` with
`2 ^ e ≤ |x| < 2 ^ (e + 1)`. The difference of the bit positions of numerator
and denominator is either `e` or `e + 1`. -/
def binaryExponent (x : ℚ) : Int :=
  let e : Int := (floorLog2 x.num.natAbs : Int) - (floorLog2 x.den : Int)
  if (2 : ℚ) ^ e ≤ (if x < 0 then -x else x) then e else e - 1

/-- Go's rounding of a real value to `float64` (IEEE 754 binary64, round to
nearest, ties to even): a 53-bit significand at the binary exponent of `x`,
the spacing `2 ^ -1074` below `2 ^ -1022`. Overflow to infinity is not
modelled: no value of this program comes near `2 ^ 1024`. -/
def float64 (x : ℚ) : ℚ :=
  if x = 0 then 0
  else
    let q : ℚ := (2 : ℚ) ^ (max (binaryExponent x) (-1022) - 52)
    (roundHalfEven (x / q) : ℚ) * q

/-- `linearDataFormatOld`, pmbus.go 37-42; `none` is the index panic on an
input shorter than two bytes. `float64(Y)` is exact (`Y < 2 ^ 32`), the constant
`0.262` is the `float64` nearest to it and the quotient is rounded to
`float64`. -/
def linearDataFormatOld (data : List Byte) : Option ℚ := do
  let d1 ← data[1]?
  let d0 ← data[0]?
  let temp : Nat := word 32 d1 d0
  let Y : Nat := ((temp * 30) % 2 ^ 32) &&& 0x3FFF
  pure (float64 ((Y : ℚ) / float64 (262 / 1000)))

/-- `linearDataFormat`, pmbus.go 44-59; `Y`, `N` and `temp` are `uint16`, so
`Y -= 2048` wraps modulo `2 ^ 16`. -/
def linearDataFormat (data : List Byte) : Option ℚ := do
  let d1 ← data[1]?
  let d0 ← data[0]?
  let temp : Nat := word 16 d1 d0
  let Y : Nat := temp &&& 0x7FF
  let N : Nat := (temp &&& 0xF800) >>> 11
  let factor : ℚ :=
    if temp &&& 0x8000 > 0 then pow2 (int16 (N ^^^ 0xFFE0))
    else pow2 (N : Int)
  let Y : Nat := if Y > 1023 then (Y + 2 ^ 16 - 2048) % 2 ^ 16 else Y
  pure ((Y : ℚ) * factor)

def PowerStatusOK : Nat := 0x01
def PowerStatusOverTemperature : Nat := 0x02
def PowerStatusUnderVoltage : Nat := 0x04
def PowerStatusOverCurrent : Nat := 0x08
def PowerStatusOverVoltage : Nat := 0x10
def PowerStatusOFF : Nat := 0x40

def PowerStatus12CML : Nat := 0x02
def PowerStatus12OverTemperature : Nat := 0x04
def PowerStatus12UnderVoltage : Nat := 0x08
def PowerStatus12OverCurrent : Nat := 0x10
def PowerStatus12OverVoltage : Nat := 0x20
def PowerStatus12OFF : Nat := 0x40
def PowerStatus12Busy : Nat := 0x80

/-- The struct `PMBusInfo`, pmbus.go 79-96; the default is Go's zero value. -/
structure PMBusInfo where
  SerialNumber : GoString := []
  ModuleNumber : GoString := []
  Revision : GoString := []
  PmbusRevision : Byte := 0
  CurSharingCtl : GoString := []
  Status : List GoString := []
  InputVoltage : ℚ := 0
  InputCurrent : ℚ := 0
  OutputVoltage : ℚ := 0
  OutputCurrent : ℚ := 0
  Temperature1 : ℚ := 0
  Temperature2 : ℚ := 0
  Fan1 : ℚ := 0
  Fan2 : ℚ := 0
  InputPower : ℚ := 0
  OutputPower : ℚ := 0
  deriving DecidableEq

/-! ## client.go: raw reads -/

/-- The transport collaborator behind `c.Send` for raw bus-master requests: the
answer to a request may depend on the requests issued before it. An `ok`
answer is the decoded `MasterResponse`, an `error` is the error of `Send`. -/
abbrev Transport := List MasterRequest → MasterRequest → Except Error MasterResponse

/-- A client computation: it extends the log of raw requests issued so far and
returns a value, or `none` when it panics. -/
abbrev M (α : Type) := List MasterRequest → List MasterRequest × Option α

/-- `(*Client).sendraw`, client.go 151-164: issues one raw request. -/
def sendraw (t : Transport) (bus addr rsize : Byte) (data : List Byte)
    (log : List MasterRequest) : List MasterRequest × Except Error MasterResponse :=
  let r : MasterRequest := { Bus := bus, Addr := addr, Rsize := rsize, Data := data }
  (log ++ [r], t log r)

/-- Go `uint8(x)` of an `int`. -/
def uint8 (x : Nat) : Byte := Fin.ofNat (x % 256)

/-- Go `data[lo:hi]` on a slice whose capacity is its length; `none` is the
panic on `hi > len data`. -/
def slice (data : List Byte) (lo hi : Nat) : Option (List Byte) :=
  if lo ≤ hi ∧ hi ≤ data.length then some ((data.take hi).drop lo) else none

/-- The loop shared by the three block readers (client.go 289-299, 306-316,
323-333): `idx` is the loop index, `todo` the iterations left and `acc` the
bytes stored so far, that is `block[:idx]`. A byte outside `0x1F .. 0x7E` ends
the loop; the Go result is `string(block[:idx+1])` for the final `idx`. -/
def readBlock (t : Transport) (addr : Byte) (base : Nat) :
    Nat → Nat → List Byte → M (GoString × Option Error)
  | 0, _, acc => fun log => (log, some (acc, none))
  | todo + 1, idx, acc => fun log =>
    match sendraw t 0x7 addr 1 [uint8 (base + idx)] log with
    | (log, .error err) => (log, some ([], some err))
    | (log, .ok m) =>
      match m.Data[0]? with
      | none => (log, none)
      | some d0 =>
        if d0.val < 0x1F ∨ d0.val > 0x7E then (log, some (acc, none))
        else readBlock t addr base todo (idx + 1) (acc ++ [d0]) log

/-- `(*Client).GetPMBusSerial`, client.go 286-301. -/
def GetPMBusSerial (t : Transport) (addr : Byte) : M (GoString × Option Error) :=
  readBlock t addr 0xD0 15 0 []

/-- `(*Client).GetPMBusModelNumber`, client.go 303-318. -/
def GetPMBusModelNumber (t : Transport) (addr : Byte) : M (GoString × Option Error) :=
  readBlock t addr 0xE0 13 0 []

/-- `(*Client).GetPMBusRevisionNumber`, client.go 320-335. -/
def GetPMBusRevisionNumber (t : Transport) (addr : Byte) : M (GoString × Option Error) :=
  readBlock t addr 0xF3 3 0 []

/-- Go `a || b` over operands that may panic: `b` is evaluated only when `a`
is false. -/
def goOr (a b : Option Bool) : Option Bool :=
  match a with
  | none => none
  | some true => some true
  | some false => b

/-- Go `a && b` over operands that may panic: `b` is evaluated only when `a`
is true. -/
def goAnd (a b : Option Bool) : Option Bool :=
  match a with
  | none => none
  | some false => some false
  | some true => b

/-- The decoding of `GetPMBusCurrentSharingControl`, client.go 342-354. -/
def curSharingCtl (data : List Byte) : Option GoString :=
  let at? (i : Nat) (p : Byte → Bool) : Option Bool := (data[i]?).map p
  match goAnd (goOr (at? 0 (fun b => b.val > 0)) (at? 1 (fun b => b.val > 0)))
      (goOr (at? 0 (fun b => b.val != 0xFF)) (at? 1 (fun b => b.val != 0xFF))) with
  | none => none
  | some true =>
    match data[0]? with
    | none => none
    | some d0 =>
      if (d0.val &&& 0xF) > 0 then
        if (d0.val &&& 0xF) ≤ 9 then some (lit "Unknown")
        else some (lit "Active - Standby")
      else some (lit "Active - Active")
  | some false => some (lit "Not supported")

/-- The shape shared by the single-value readers: one raw read of `rsize`
bytes at sub-address `cmd` on bus 7; a failed read returns the zero value
`zero` with the error, a successful one decodes `m.Data` with `dec`. -/
def readValue {α : Type} (t : Transport) (addr rsize cmd : Byte) (zero : α)
    (dec : List Byte → Option α) : M (α × Option Error) := fun log =>
  match sendraw t 0x7 addr rsize [cmd] log with
  | (log, .error err) => (log, some (zero, some err))
  | (log, .ok m) => (log, (dec m.Data).map (fun v => (v, none)))

/-- `(*Client).GetPMBusCurrentSharingControl`, client.go 337-355. -/
def GetPMBusCurrentSharingControl (t : Transport) (addr : Byte) : M (GoString × Option Error) :=
  readValue t addr 2 0xFC [] curSharingCtl

/-- `(*Client).GetPMBusVOutMode`, client.go 357-363. -/
def GetPMBusVOutMode (t : Transport) (addr : Byte) : M (Byte × Option Error) :=
  readValue t addr 1 0x20 0 (fun data => data[0]?)

/-- `(*Client).GetPMBusStatus`, client.go 365-371. -/
def GetPMBusStatus (t : Transport) (addr : Byte) : M (Byte × Option Error) :=
  readValue t addr 1 0x78 0 (fun data => data[0]?)

/-- The decoding `linearDataFormat(m.Data[0:2])` of the two-byte readers. -/
def linearOfData (data : List Byte) : Option ℚ :=
  (slice data 0 2).bind linearDataFormat

/-- The decoding of the fan readers, client.go 442-446 and 455-459. -/
def fanOfData (old : Bool) (data : List Byte) : Option ℚ :=
  if old then (slice data 0 2).bind linearDataFormatOld
  else (slice data 0 2).bind linearDataFormat

/-- `(*Client).GetPMBusACInputVoltage`, client.go 373-380. -/
def GetPMBusACInputVoltage (t : Transport) (addr : Byte) : M (ℚ × Option Error) :=
  readValue t addr 2 0x88 0 linearOfData

/-- `(*Client).GetPMBusACInputCurrent`, client.go 382-389. -/
def GetPMBusACInputCurrent (t : Transport) (addr : Byte) : M (ℚ × Option Error) :=
  readValue t addr 2 0x89 0 linearOfData

/-- The decoding of `GetPMBusDC12VOutputVoltage`, client.go 396-406: on a
`uint8`, Go `^x` is `x ^^^ 0xFF`. -/
def vOutOfData (VOutMode : Byte) (data : List Byte) : Option ℚ :=
  if VOutMode.val > 0 then do
    let d1 ← data[1]?
    let d0 ← data[0]?
    let value : Nat := word 16 d1 d0
    if VOutMode.val &&& 0x10 > 0 then
      pure ((value : ℚ) * pow2 (int8 ((VOutMode.val ^^^ 0x1F) ^^^ 0xFF)))
    else
      pure ((value : ℚ) * pow2 ((VOutMode.val ^^^ 0x1F : Nat) : Int))
  else
    (slice data 0 2).bind linearDataFormat

/-- `(*Client).GetPMBusDC12VOutputVoltage`, client.go 391-408. -/
def GetPMBusDC12VOutputVoltage (t : Transport) (addr : Byte) (VOutMode : Byte) :
    M (ℚ × Option Error) :=
  readValue t addr 2 0x8B 0 (vOutOfData VOutMode)

/-- `(*Client).GetPMBusDC12VOutputCurrent`, client.go 410-417. -/
def GetPMBusDC12VOutputCurrent (t : Transport) (addr : Byte) : M (ℚ × Option Error) :=
  readValue t addr 2 0x8C 0 linearOfData

/-- `(*Client).GetPMBusTemperature1`, client.go 419-426. -/
def GetPMBusTemperature1 (t : Transport) (addr : Byte) : M (ℚ × Option Error) :=
  readValue t addr 2 0x8D 0 linearOfData

/-- `(*Client).GetPMBusTemperature2`, client.go 428-435. -/
def GetPMBusTemperature2 (t : Transport) (addr : Byte) : M (ℚ × Option Error) :=
  readValue t addr 2 0x8E 0 linearOfData

/-- `(*Client).GetPMBusFan1`, client.go 437-448. -/
def GetPMBusFan1 (t : Transport) (addr : Byte) (old : Bool) : M (ℚ × Option Error) :=
  readValue t addr 2 0x90 0 (fanOfData old)

/-- `(*Client).GetPMBusFan2`, client.go 450-461. -/
def GetPMBusFan2 (t : Transport) (addr : Byte) (old : Bool) : M (ℚ × Option Error) :=
  readValue t addr 2 0x91 0 (fanOfData old)

/-- `(*Client).GetPMBusDC12VOutputPower`, client.go 463-470. -/
def GetPMBusDC12VOutputPower (t : Transport) (addr : Byte) : M (ℚ × Option Error) :=
  readValue t addr 2 0x96 0 linearOfData

/-- `(*Client).GetPMBusACInputPower`, client.go 472-479. -/
def GetPMBusACInputPower (t : Transport) (addr : Byte) : M (ℚ × Option Error) :=
  readValue t addr 2 0x97 0 linearOfData

/-- `(*Client).GetPMBusRevision`, client.go 481-487. -/
def GetPMBusRevision (t : Transport) (addr : Byte) : M (Byte × Option Error) :=
  readValue t addr 1 0x98 0 (fun data => data[0]?)

/-! ## client.go: aggregation -/

/-- The statement `if cond { info.Status = append(info.Status, label) }`. -/
def appendIf (cond : Bool) (label : GoString) (status : List GoString) : List GoString :=
  if cond then status ++ [label] else status

/-- The status decoding of `GetPMBusInfo`, client.go 197-240, as a function of
the model number, the address, the status byte and the list so far. -/
def decodeStatus (ModuleNumber : GoString) (addr status : Byte) (st : List GoString) :
    List GoString :=
  if checkNoneStandardSMCPowerSupplies ModuleNumber then
    let st := appendIf (status.val &&& PowerStatusOK > 0) (lit "OK") st
    let st := appendIf (status.val &&& PowerStatusOverTemperature > 0)
      (lit "Over Temperature Fault") st
    let st := appendIf (status.val &&& PowerStatusUnderVoltage > 0) (lit "Under Voltage Fault") st
    let st := appendIf (status.val &&& PowerStatusOverCurrent > 0) (lit "Over Current Fault") st
    let st := appendIf (status.val &&& PowerStatusOverVoltage > 0) (lit "Over Voltage Fault") st
    let st := appendIf (status.val &&& PowerStatusOFF > 0) (lit "OFF") st
    st
  else if addr.val ≥ 0xB0 then
    st
  else
    let st := appendIf
      (status.val == 0 || status.val &&& PowerStatusOK > 0 ||
        (status.val &&& PowerStatus12CML > 0 && status.val &&& PowerStatus12OFF == 0))
      (lit "OK") st
    let st := appendIf (status.val &&& PowerStatus12OverTemperature > 0)
      (lit "Over Temperature Fault") st
    let st := appendIf (status.val &&& PowerStatus12UnderVoltage > 0)
      (lit "Under Voltage Fault") st
    let st := appendIf (status.val &&& PowerStatus12OverCurrent > 0) (lit "Over Current Fault") st
    let st := appendIf (status.val &&& PowerStatus12OverVoltage > 0) (lit "Over Voltage Fault") st
    let st := appendIf (status.val &&& PowerStatus12OFF > 0) (lit "OFF") st
    let st := appendIf (status.val &&& PowerStatus12Busy > 0) (lit "Busy") st
    st

/-- The statement pair `x, err = read(); if err != nil { return }` of
`GetPMBusInfo`: `set` stores the value read (it is stored on failure too, the
result `info` being a named result), `next` is the rest of the function. -/
def readThen {α : Type} (read : M (α × Option Error)) (set : α → PMBusInfo)
    (next : α → PMBusInfo → M (PMBusInfo × Option Error)) : M (PMBusInfo × Option Error) :=
  fun log =>
    match read log with
    | (log, none) => (log, none)
    | (log, some (v, some err)) => (log, some (set v, some err))
    | (log, some (v, none)) => next v (set v) log

/-- `(*Client).GetPMBusInfo`, client.go 166-284. -/
def GetPMBusInfo (t : Transport) (addr : Byte) : M (PMBusInfo × Option Error) :=
  let info : PMBusInfo := {}
  readThen (GetPMBusSerial t addr) (fun v => { info with SerialNumber := v }) fun _ info =>
  readThen (GetPMBusModelNumber t addr) (fun v => { info with ModuleNumber := v }) fun _ info =>
  readThen (GetPMBusRevisionNumber t addr) (fun v => { info with Revision := v }) fun _ info =>
  readThen (GetPMBusRevision t addr) (fun v => { info with PmbusRevision := v }) fun _ info =>
  readThen (GetPMBusCurrentSharingControl t addr)
    (fun v => { info with CurSharingCtl := v }) fun _ info =>
  readThen (GetPMBusVOutMode t addr) (fun _ => info) fun VOutMode info =>
  let info := { info with Status := [] }
  readThen (GetPMBusStatus t addr) (fun _ => info) fun status info =>
  let info := { info with Status := decodeStatus info.ModuleNumber addr status info.Status }
  readThen (GetPMBusACInputVoltage t addr) (fun v => { info with InputVoltage := v }) fun _ info =>
  readThen (GetPMBusACInputCurrent t addr) (fun v => { info with InputCurrent := v }) fun _ info =>
  readThen (GetPMBusDC12VOutputVoltage t addr VOutMode)
    (fun v => { info with OutputVoltage := v }) fun _ info =>
  readThen (GetPMBusDC12VOutputCurrent t addr)
    (fun v => { info with OutputCurrent := v }) fun _ info =>
  readThen (GetPMBusTemperature1 t addr) (fun v => { info with Temperature1 := v }) fun _ info =>
  readThen (GetPMBusTemperature2 t addr) (fun v => { info with Temperature2 := v }) fun _ info =>
  let oldPower := isSMCOldPower info.ModuleNumber
  readThen (GetPMBusFan1 t addr oldPower) (fun v => { info with Fan1 := v }) fun _ info =>
  readThen (GetPMBusFan2 t addr oldPower) (fun v => { info with Fan2 := v }) fun _ info =>
  readThen (GetPMBusACInputPower t addr) (fun v => { info with InputPower := v }) fun _ info =>
  readThen (GetPMBusDC12VOutputPower t addr) (fun v => { info with OutputPower := v }) fun _ info =>
  fun log => (log, some (info, none))

/-! ## client.go: boot device -/

/-- The boot-option parameter selectors that `SetBootDevice` uses. The constants
`BootParamSetInProgress`, `BootParamInfoAck` and `BootParamBootFlags` are
declared outside the embedded sources: their values are parameters. -/
structure BootParams where
  BootParamSetInProgress : Byte
  BootParamInfoAck : Byte
  BootParamBootFlags : Byte
  deriving DecidableEq, Repr

/-- The `SetSystemBootOptionsRequest` that `setBootParam` sends (network
function and command are the same for every boot-option write). -/
structure SetSystemBootOptionsRequest where
  Param : Byte
  Data : List Byte
  deriving DecidableEq, Repr

/-- The transport collaborator behind `c.Send` for boot-option writes: `none`
is Go's `nil` error; the answer may depend on the writes issued before. -/
abbrev BootTransport :=
  List SetSystemBootOptionsRequest → SetSystemBootOptionsRequest → Option Error

/-- `(*Client).setBootParam`, client.go 69-79: issues one boot-option write and
returns its error. -/
def setBootParam (t : BootTransport) (param : Byte) (data : List Byte)
    (log : List SetSystemBootOptionsRequest) :
    List SetSystemBootOptionsRequest × Option Error :=
  let r : SetSystemBootOptionsRequest := { Param := param, Data := data }
  (log ++ [r], t log r)

/-- `(*Client).SetBootDevice`, client.go 83-114 (`BootDevice` is a `uint8`): the
log of writes after the call and the returned error. -/
def SetBootDevice (t : BootTransport) (p : BootParams) (dev : Byte)
    (log : List SetSystemBootOptionsRequest) :
    List SetSystemBootOptionsRequest × Option Error :=
  let useProgress := true
  match setBootParam t p.BootParamSetInProgress [0x01] log with
  | (log, err) =>
    let useProgress := if err.isSome then false else useProgress
    match setBootParam t p.BootParamInfoAck [0x01, 0x01] log with
    | (log, some err) =>
      let log := if useProgress then (setBootParam t p.BootParamSetInProgress [0x00] log).1
        else log
      (log, some err)
    | (log, none) =>
      match setBootParam t p.BootParamBootFlags [0x80, dev, 0x00, 0x00, 0x00] log with
      | (log, err) =>
        let log :=
          if err.isNone then
            if useProgress then (setBootParam t p.BootParamSetInProgress [0x02] log).1
            else log
          else log
        let log := if useProgress then (setBootParam t p.BootParamSetInProgress [0x00] log).1
          else log
        (log, err)

/-! ## Vocabulary of the statements -/

/-- The labels, in table order, of the masks of `table` that have a bit in
common with the status byte. -/
def labelsOf (table : List (Nat × GoString)) (status : Byte) : List GoString :=
  (table.filter (fun p => status.val &&& p.1 != 0)).map Prod.snd

/-- The status bits of a non-standard power supply and their labels. -/
def nonStandardStatusBits : List (Nat × GoString) :=
  [(0x01, lit "OK"), (0x02, lit "Over Temperature Fault"), (0x04, lit "Under Voltage Fault"),
   (0x08, lit "Over Current Fault"), (0x10, lit "Over Voltage Fault"), (0x40, lit "OFF")]

/-- The fault bits of a standard power supply and their labels. -/
def standardStatusBits : List (Nat × GoString) :=
  [(0x04, lit "Over Temperature Fault"), (0x08, lit "Under Voltage Fault"),
   (0x10, lit "Over Current Fault"), (0x20, lit "Over Voltage Fault"), (0x40, lit "OFF"),
   (0x80, lit "Busy")]

/-- The raw request of `sendraw(0x7, addr, rsize, cmd)`. -/
def rawRead (addr rsize cmd : Byte) : MasterRequest :=
  { Bus := 0x7, Addr := addr, Rsize := rsize, Data := [cmd] }

/-- The requests a block reader issues from loop index `idx` on when no byte
ends it early. -/
def blockReads (addr : Byte) (base : Nat) : Nat → Nat → List MasterRequest
  | 0, _ => []
  | todo + 1, idx => rawRead addr 1 (uint8 (base + idx)) :: blockReads addr base todo (idx + 1)

/-- Every raw read `GetPMBusInfo` can issue, in program order. -/
def schedule (addr : Byte) : List MasterRequest :=
  blockReads addr 0xD0 15 0 ++ (blockReads addr 0xE0 13 0 ++ (blockReads addr 0xF3 3 0 ++
  ([rawRead addr 1 0x98] ++ ([rawRead addr 2 0xFC] ++ ([rawRead addr 1 0x20] ++
  ([rawRead addr 1 0x78] ++ ([rawRead addr 2 0x88] ++ ([rawRead addr 2 0x89] ++
  ([rawRead addr 2 0x8B] ++ ([rawRead addr 2 0x8C] ++ ([rawRead addr 2 0x8D] ++
  ([rawRead addr 2 0x8E] ++ ([rawRead addr 2 0x90] ++ ([rawRead addr 2 0x91] ++
  ([rawRead addr 2 0x97] ++ ([rawRead addr 2 0x96] ++ []))))))))))))))))

/-- Fail-fast behaviour of a client computation against the transport `t`:
from any log it issues new reads that form a sublist of `sched`; a read that
fails is the last one issued and its error is the error returned; and a
returned error is the error of the last read issued. -/
def FailFast (t : Transport) (sched : List MasterRequest) {α : Type}
    (m : M (α × Option Error)) : Prop :=
  ∀ log, ∃ new, (m log).1 = log ++ new ∧ new.Sublist sched ∧
    (∀ i r e, new[i]? = some r → t (log ++ new.take i) r = .error e →
      new.length = i + 1 ∧ ∃ v, (m log).2 = some (v, some e)) ∧
    (∀ v e, (m log).2 = some (v, some e) →
      ∃ init r, new = init ++ [r] ∧ t (log ++ init) r = .error e)

/-- In the log `L` of a run against `t`, a status read (sub-address `0x78`)
that was answered with at least one data byte is followed at once by the read
of sub-address `0x88`. -/
def StatusThenNext (t : Transport) (addr : Byte) (L : List MasterRequest) : Prop :=
  ∀ pre m s, (pre ++ [rawRead addr 1 0x78]) <+: L → t pre (rawRead addr 1 0x78) = .ok m →
    m.Data[0]? = some s → (pre ++ [rawRead addr 1 0x78, rawRead addr 2 0x88]) <+: L

/-! ## Transports and records of the worked examples -/

/-- A transport that answers the reads of the model block with the bytes of
`model` (a zero byte after them), the status read with `status` and every
other read with two zero bytes. -/
def exampleTransport (model : GoString) (status : Byte) : Transport := fun _ r =>
  match r.Data with
  | [cmd] =>
    if 0xE0 ≤ cmd.val ∧ cmd.val < 0xE0 + 13 then
      .ok { CompletionCode := 0, Data := [model.getD (cmd.val - 0xE0) 0] }
    else if cmd.val = 0x78 then .ok { CompletionCode := 0, Data := [status] }
    else .ok { CompletionCode := 0, Data := [0, 0] }
  | _ => .error (Error.transport 0)

/-- The transport `exampleTransport model status` with a failure injected at
the read of sub-address `cmd`. -/
def failingTransport (model : GoString) (status cmd : Byte) (code : Nat) : Transport :=
  fun log r =>
    if r.Data = [cmd] then .error (Error.transport code)
    else exampleTransport model status log r

/-- The record `GetPMBusInfo` builds against `exampleTransport model status`
when the status list comes out as `st`. -/
def exampleInfo (model : GoString) (st : List GoString) : PMBusInfo :=
  { ModuleNumber := model, CurSharingCtl := lit "Not supported", Status := st }

/-- A transport that answers every read with the same two data bytes. -/
def constTransport (d0 d1 : Byte) : Transport :=
  fun _ _ => .ok { CompletionCode := 0, Data := [d0, d1] }

/-! ## Boot writes and the plain classifier test of the statements -/

/-- The write `(param, data)`. -/
def bootWrite (param : Byte) (data : List Byte) : SetSystemBootOptionsRequest :=
  { Param := param, Data := data }

/-- A boot transport that fails, with error code 1, exactly the writes listed
in `failing`. -/
def exampleBootTransport (failing : List SetSystemBootOptionsRequest) : BootTransport :=
  fun _ w => if w ∈ failing then some (Error.transport 1) else none

/-- The parameter selectors of the worked examples (those of the IPMI
specification: 0, 4 and 5). -/
def exampleBootParams : BootParams :=
  { BootParamSetInProgress := 0, BootParamInfoAck := 4, BootParamBootFlags := 5 }

/-- The plain test of the classifier in the words of the specification: some
entry of the ten-entry table is a substring of the model string. -/
def someEntryIsSubstring (s : GoString) : Bool :=
  noneStandardSMCPowerSupplies.any (fun entry => stringsContains s entry)


/-! ## Vocabulary of the statements about blocks and partial results -/

/-- The byte test of the block readers: the byte lies in `0x1F .. 0x7E`. -/
def inBlockRange (b : Byte) : Bool := decide (0x1F ≤ b.val ∧ b.val ≤ 0x7E)

/-- The read of the `i`-th byte of the block that starts at `base`. -/
def blockRead (addr : Byte) (base i : Nat) : MasterRequest :=
  rawRead addr 1 (uint8 (base + i))

/-- The transport serves a block of `n` bytes at the sub-addresses from `base`
on: every read of sub-address `base + i`, `i < n`, succeeds and its first data
byte is `block i`. -/
def ServesBlock (t : Transport) (addr : Byte) (base n : Nat) (block : Nat → Byte) : Prop :=
  ∀ pre i, i < n → ∃ m rest, t pre (blockRead addr base i) = .ok m ∧ m.Data = block i :: rest

/-- What the specification asks of a block reader of `n` bytes from `base`:
against a transport that serves the block, the string returned is the longest
prefix of the block whose bytes are all in range, and the reads issued are those
of the bytes returned and of the byte that ended the scan, if any. -/
def LongestPrefixReader (read : Transport → Byte → M (GoString × Option Error))
    (base n : Nat) : Prop :=
  ∀ t addr block log, ServesBlock t addr base n block →
    read t addr log =
      (log ++ (List.range (min n ((((List.range n).map block).takeWhile inBlockRange).length + 1))).map
          (blockRead addr base),
        some (((List.range n).map block).takeWhile inBlockRange, none)) ∧
    (inBlockRange (block 0) = false → 0 < n →
      read t addr log = (log ++ [blockRead addr base 0], some ([], none))) ∧
    ((∀ i, i < n → inBlockRange (block i) = true) →
      read t addr log =
        (log ++ (List.range n).map (blockRead addr base), some ((List.range n).map block, none)))

/-- A transport that serves the same `block` at every block sub-address
(`0xD0 ..`, `0xE0 ..`, `0xF3 ..`), indexed from the start of each block. -/
def blockTransport (block : Nat → Byte) : Transport := fun _ r =>
  match r.Data with
  | [cmd] =>
    if 0xF3 ≤ cmd.val then .ok { CompletionCode := 0, Data := [block (cmd.val - 0xF3)] }
    else if 0xE0 ≤ cmd.val then .ok { CompletionCode := 0, Data := [block (cmd.val - 0xE0)] }
    else .ok { CompletionCode := 0, Data := [block (cmd.val - 0xD0)] }
  | _ => .error (Error.transport 0)

/-- The block `'A', 'B', 0x00, 'C', 'C', ...` of the worked example. -/
def exampleBlock (i : Nat) : Byte :=
  if i = 0 then 0x41 else if i = 1 then 0x42 else if i = 2 then 0x00 else 0x43

/-- A reader call with its value tested by `p`: same log, same error, and the
Boolean `p v` in place of the value `v`. -/
def checked {α : Type} (read : M (α × Option Error)) (p : α → Bool) : M (Bool × Option Error) :=
  fun log => ((read log).1, (read log).2.map (fun r => (p r.1, r.2)))

/-- The `k`-th reader call of `GetPMBusInfo`, `k = 0 .. 16` in program order,
with the value it returns tested against what `GetPMBusInfo` stores from it in
`info` (the VOut mode, which is stored in no field, against `mode`). -/
def readerCall (t : Transport) (addr : Byte) (info : PMBusInfo) (mode : Byte) :
    Nat → M (Bool × Option Error)
  | 0 => checked (GetPMBusSerial t addr) (fun v => decide (v = info.SerialNumber))
  | 1 => checked (GetPMBusModelNumber t addr) (fun v => decide (v = info.ModuleNumber))
  | 2 => checked (GetPMBusRevisionNumber t addr) (fun v => decide (v = info.Revision))
  | 3 => checked (GetPMBusRevision t addr) (fun v => decide (v = info.PmbusRevision))
  | 4 => checked (GetPMBusCurrentSharingControl t addr)
      (fun v => decide (v = info.CurSharingCtl))
  | 5 => checked (GetPMBusVOutMode t addr) (fun v => decide (v = mode))
  | 6 => checked (GetPMBusStatus t addr)
      (fun v => decide (decodeStatus info.ModuleNumber addr v [] = info.Status))
  | 7 => checked (GetPMBusACInputVoltage t addr) (fun v => decide (v = info.InputVoltage))
  | 8 => checked (GetPMBusACInputCurrent t addr) (fun v => decide (v = info.InputCurrent))
  | 9 => checked (GetPMBusDC12VOutputVoltage t addr mode)
      (fun v => decide (v = info.OutputVoltage))
  | 10 => checked (GetPMBusDC12VOutputCurrent t addr)
      (fun v => decide (v = info.OutputCurrent))
  | 11 => checked (GetPMBusTemperature1 t addr) (fun v => decide (v = info.Temperature1))
  | 12 => checked (GetPMBusTemperature2 t addr) (fun v => decide (v = info.Temperature2))
  | 13 => checked (GetPMBusFan1 t addr (isSMCOldPower info.ModuleNumber))
      (fun v => decide (v = info.Fan1))
  | 14 => checked (GetPMBusFan2 t addr (isSMCOldPower info.ModuleNumber))
      (fun v => decide (v = info.Fan2))
  | 15 => checked (GetPMBusACInputPower t addr) (fun v => decide (v = info.InputPower))
  | 16 => checked (GetPMBusDC12VOutputPower t addr) (fun v => decide (v = info.OutputPower))
  | _ => fun log => (log, none)

/-- The record `info` with the fields that `GetPMBusInfo` stores from its `k`-th
reader call on (`k` counted as in `readerCall`) reset to their zero values. -/
def keepBefore (k : Nat) (info : PMBusInfo) : PMBusInfo :=
  { SerialNumber := if 0 < k then info.SerialNumber else [],
    ModuleNumber := if 1 < k then info.ModuleNumber else [],
    Revision := if 2 < k then info.Revision else [],
    PmbusRevision := if 3 < k then info.PmbusRevision else 0,
    CurSharingCtl := if 4 < k then info.CurSharingCtl else [],
    Status := if 6 < k then info.Status else [],
    InputVoltage := if 7 < k then info.InputVoltage else 0,
    InputCurrent := if 8 < k then info.InputCurrent else 0,
    OutputVoltage := if 9 < k then info.OutputVoltage else 0,
    OutputCurrent := if 10 < k then info.OutputCurrent else 0,
    Temperature1 := if 11 < k then info.Temperature1 else 0,
    Temperature2 := if 12 < k then info.Temperature2 else 0,
    Fan1 := if 13 < k then info.Fan1 else 0,
    Fan2 := if 14 < k then info.Fan2 else 0,
    InputPower := if 15 < k then info.InputPower else 0,
    OutputPower := if 16 < k then info.OutputPower else 0 }


/-! ## Theorems: raw.go -/

theorem marshal_frame (a b c : Byte) (data : List Byte) :
    (do
      let buf := makeBytes (3 + data.length)
      let buf ← setByte buf 0 a
      let buf ← setByte buf 1 b
      let buf ← setByte buf 2 c
      let buf ← copyFrom buf 3 data
      pure (buf, (none : Option Error))) = some ([a, b, c] ++ data, none) := by
  have h : makeBytes (3 + data.length) = 0 :: 0 :: 0 :: makeBytes data.length := by
    simp [makeBytes, Nat.add_comm 3, List.replicate_succ]
  simp only [h, setByte]
  simp [copyFrom, makeBytes]
  omega

/-- C1: `MasterRequest.MarshalBinary` always succeeds, the frame it builds is
exactly `[Bus, Addr, Rsize]` followed by `Data` (for any `Data`, the empty one
included), and `MasterRequest.UnmarshalBinary` of that frame, on any receiver,
succeeds and leaves the receiver equal to the request that was encoded. -/
theorem MasterRequest_marshal_unmarshal (r r0 : MasterRequest) :
    r.MarshalBinary = some ([r.Bus, r.Addr, r.Rsize] ++ r.Data, none) ∧
    r0.UnmarshalBinary ([r.Bus, r.Addr, r.Rsize] ++ r.Data) = (r, none) := by
  constructor
  · exact marshal_frame r.Bus r.Addr r.Rsize r.Data
  · simp [MasterRequest.UnmarshalBinary]

/-- C2: `MasterResponse.UnmarshalBinary` returns `ErrShortPacket` exactly when
the buffer has fewer than two bytes, and then the receiver is unchanged; on a
buffer `b0 :: rest` of at least two bytes it returns no error and the receiver
becomes `CompletionCode = b0`, `Data = rest`, of length `len buf - 1 ≥ 1`. -/
theorem MasterResponse_unmarshal (r : MasterResponse) (buf : List Byte) :
    ((r.UnmarshalBinary buf).2 = some Error.ErrShortPacket ↔ buf.length < 2) ∧
    (buf.length < 2 → r.UnmarshalBinary buf = (r, some Error.ErrShortPacket)) ∧
    (2 ≤ buf.length → ∃ b0 rest, buf = b0 :: rest ∧
      r.UnmarshalBinary buf = ({ CompletionCode := b0, Data := rest }, none) ∧
      rest.length = buf.length - 1 ∧ 1 ≤ rest.length) := by
  refine ⟨?_, ?_, ?_⟩
  · by_cases h : buf.length < 2 <;> simp [MasterResponse.UnmarshalBinary, h]
  · intro h; simp [MasterResponse.UnmarshalBinary, h]
  · intro h
    match buf, h with
    | b0 :: b1 :: rest, _ =>
      exact ⟨b0, b1 :: rest, rfl, by simp [MasterResponse.UnmarshalBinary], by simp, by simp⟩

/-! ## Theorems: pmbus.go -/

/-- C3: on the word `0x07FF` (bytes `[0xFF, 0x07]`: mantissa bits all set,
exponent 0) `linearDataFormat` returns `65535`, not `-1`: the `uint16`
subtraction `Y -= 2048` wraps. -/
theorem linearDataFormat_mantissa_sign_wraps :
    linearDataFormat [0xFF, 0x07] = some 65535 ∧ (65535 : ℚ) ≠ -1 := by
  constructor
  · decide!
  · norm_num

/-- C4: with VOut mode `0x01` (exponent bits `00001`, that is `+1`) and the raw
word `0x0001`, `GetPMBusDC12VOutputVoltage` returns `2 ^ 30`, not `1 * 2 ^ 1`:
the exponent used is `VOutMode ^ 0x1F = 30`. -/
theorem GetPMBusDC12VOutputVoltage_positive_exponent :
    GetPMBusDC12VOutputVoltage (constTransport 0x01 0x00) 0x58 0x01 [] =
      ([rawRead 0x58 2 0x8B], some (1073741824, none)) ∧
    (1073741824 : ℚ) ≠ 1 * 2 ^ (1 : ℤ) := by
  constructor
  · decide!
  · norm_num

theorem word_eq (d1 d0 : Byte) : word 32 d1 d0 = d1.val * 256 + d0.val := by
  have h1 := d1.isLt
  have h0 := d0.isLt
  simp only [word, Nat.shiftLeft_eq]
  omega

theorem roundHalfEven_error (y : ℚ) : |((roundHalfEven y : Int) : ℚ) - y| ≤ 1 / 2 := by
  have hf := Int.floor_le y
  have hl := Int.lt_floor_add_one y
  unfold roundHalfEven
  simp only
  split_ifs <;> rw [abs_le] <;> constructor <;> push_cast <;> linarith

theorem roundHalfEven_nonneg (y : ℚ) (hy : 0 ≤ y) : 0 ≤ roundHalfEven y := by
  have hf : (0 : Int) ≤ ⌊y⌋ := Int.floor_nonneg.2 hy
  unfold roundHalfEven
  simp only
  split_ifs <;> omega

theorem log2Fuel_eq (fuel : Nat) : ∀ n, n ≤ fuel → log2Fuel fuel n = Nat.log2 n := by
  induction fuel with
  | zero =>
    intro n hn
    have : n = 0 := by omega
    subst this
    rw [Nat.log2]
    simp [log2Fuel]
  | succ k ih =>
    intro n hn
    rw [Nat.log2]
    simp only [log2Fuel]
    by_cases h : 2 ≤ n
    · have hk : n / 2 ≤ k := by omega
      simp [h, ih _ hk]
    · simp [h]

theorem floorLog2_eq (n : Nat) : floorLog2 n = Nat.log2 n := log2Fuel_eq n n le_rfl

theorem floorLog2_le (n : Nat) (hn : n ≠ 0) : 2 ^ floorLog2 n ≤ n := by
  rw [floorLog2_eq]
  exact Nat.log2_self_le hn

theorem lt_floorLog2 (n : Nat) : n < 2 ^ (floorLog2 n + 1) := by
  rw [floorLog2_eq]
  exact Nat.lt_log2_self

theorem rat_eq_natAbs_div (x : ℚ) (hx : 0 < x) : x = (x.num.natAbs : ℚ) / (x.den : ℚ) := by
  have hnum : 0 < x.num := Rat.num_pos.2 hx
  have hcast : ((x.num.natAbs : Nat) : ℚ) = (x.num : ℚ) := by
    have hz : ((x.num.natAbs : Nat) : Int) = x.num := Int.natAbs_of_nonneg hnum.le
    rw [← Int.cast_natCast, hz]
  rw [hcast]
  exact (Rat.num_div_den x).symm

theorem zpow_sub_natCast (a b : Nat) :
    (2 : ℚ) ^ ((a : Int) - (b : Int)) = ((2 ^ a : Nat) : ℚ) / ((2 ^ b : Nat) : ℚ) := by
  rw [zpow_sub₀ (by norm_num : (2 : ℚ) ≠ 0), zpow_natCast, zpow_natCast]
  push_cast
  rfl

theorem binaryExponent_le (x : ℚ) (hx : 0 < x) : (2 : ℚ) ^ binaryExponent x ≤ x := by
  unfold binaryExponent
  simp only [if_neg (not_lt.2 hx.le)]
  split_ifs with h
  · exact h
  · have hnum : 0 < x.num := Rat.num_pos.2 hx
    have hn0 : x.num.natAbs ≠ 0 := by omega
    have h1 : ((2 ^ floorLog2 x.num.natAbs : Nat) : ℚ) ≤ (x.num.natAbs : ℚ) := by
      exact_mod_cast floorLog2_le _ hn0
    have h2 : ((x.den : Nat) : ℚ) ≤ ((2 ^ (floorLog2 x.den + 1) : Nat) : ℚ) := by
      exact_mod_cast (lt_floorLog2 x.den).le
    have hden : (0 : ℚ) < (x.den : ℚ) := by exact_mod_cast x.den_pos
    have e : ((floorLog2 x.num.natAbs : Int) - (floorLog2 x.den : Int) - 1) =
        (floorLog2 x.num.natAbs : Int) - ((floorLog2 x.den + 1 : Nat) : Int) := by
      push_cast; ring
    rw [e, zpow_sub_natCast]
    conv_rhs => rw [rat_eq_natAbs_div x hx]
    exact div_le_div₀ (by positivity) h1 hden h2

theorem lt_binaryExponent (x : ℚ) (hx : 0 < x) : x < (2 : ℚ) ^ (binaryExponent x + 1) := by
  unfold binaryExponent
  simp only [if_neg (not_lt.2 hx.le)]
  split_ifs with h
  · have h1 : ((x.num.natAbs : Nat) : ℚ) < ((2 ^ (floorLog2 x.num.natAbs + 1) : Nat) : ℚ) := by
      exact_mod_cast lt_floorLog2 x.num.natAbs
    have h2 : ((2 ^ floorLog2 x.den : Nat) : ℚ) ≤ ((x.den : Nat) : ℚ) := by
      exact_mod_cast floorLog2_le _ x.den_nz
    have hpos : (0 : ℚ) < ((2 ^ floorLog2 x.den : Nat) : ℚ) := by positivity
    have e : ((floorLog2 x.num.natAbs : Int) - (floorLog2 x.den : Int) + 1) =
        ((floorLog2 x.num.natAbs + 1 : Nat) : Int) - (floorLog2 x.den : Int) := by
      push_cast; ring
    rw [e, zpow_sub_natCast]
    conv_lhs => rw [rat_eq_natAbs_div x hx]
    exact div_lt_div₀ h1 h2 (by positivity) hpos
  · rw [sub_add_cancel]
    exact not_le.1 h

theorem float64_nonneg (x : ℚ) (hx : 0 ≤ x) : 0 ≤ float64 x := by
  unfold float64
  split_ifs with h0
  · exact le_refl _
  · simp only
    have hq : (0 : ℚ) < (2 : ℚ) ^ (max (binaryExponent x) (-1022) - 52) := by positivity
    have hn := roundHalfEven_nonneg (x / (2 : ℚ) ^ (max (binaryExponent x) (-1022) - 52))
      (div_nonneg hx hq.le)
    have : (0 : ℚ) ≤ (roundHalfEven (x / (2 : ℚ) ^ (max (binaryExponent x) (-1022) - 52)) : ℚ) := by
      exact_mod_cast hn
    positivity

theorem float64_error (x : ℚ) (hx : (2 : ℚ) ^ (-1022 : Int) ≤ x) :
    |float64 x - x| ≤ x * (2 : ℚ) ^ (-53 : Int) := by
  have hpos : 0 < x := lt_of_lt_of_le (by positivity) hx
  unfold float64
  rw [if_neg hpos.ne']
  simp only
  set q : ℚ := (2 : ℚ) ^ (max (binaryExponent x) (-1022) - 52) with hq
  have hqpos : 0 < q := by positivity
  have herr := roundHalfEven_error (x / q)
  have hmul : |((roundHalfEven (x / q) : Int) : ℚ) * q - x| ≤ q / 2 := by
    have : ((roundHalfEven (x / q) : Int) : ℚ) * q - x =
        (((roundHalfEven (x / q) : Int) : ℚ) - x / q) * q := by
      field_simp
    rw [this, abs_mul, abs_of_pos hqpos]
    calc |((roundHalfEven (x / q) : Int) : ℚ) - x / q| * q ≤ 1 / 2 * q :=
          mul_le_mul_of_nonneg_right herr hqpos.le
      _ = q / 2 := by ring
  refine le_trans hmul ?_
  have hqle : q ≤ x * (2 : ℚ) ^ (-52 : Int) := by
    rw [hq, zpow_sub₀ (by norm_num : (2 : ℚ) ≠ 0), div_eq_mul_inv, ← zpow_neg]
    apply mul_le_mul_of_nonneg_right _ (by positivity)
    rcases le_total (binaryExponent x) (-1022) with hle | hge
    · rw [max_eq_right hle]; exact hx
    · rw [max_eq_left hge]; exact binaryExponent_le x hpos
  have h53 : (2 : ℚ) ^ (-52 : Int) / 2 = (2 : ℚ) ^ (-53 : Int) := by norm_num
  calc q / 2 ≤ x * (2 : ℚ) ^ (-52 : Int) / 2 :=
        div_le_div_of_nonneg_right hqle (by norm_num)
    _ = x * (2 : ℚ) ^ (-53 : Int) := by rw [mul_div_assoc, h53]

theorem float64_constant : float64 (262 / 1000) = 589971551185535 / 2251799813685248 := by
  decide!

/-- C5: for the bytes `d0` (low) and `d1` (high) with `v = d1 * 256 + d0`,
the 32-bit word the code builds is `v`, `v * 30` is below `2 ^ 32`,
`Y = v * 30 mod 2 ^ 14` is at most 16383, `linearDataFormatOld` returns the
`float64` quotient of `Y` by the `float64` constant `0.262`
(`589971551185535 / 2 ^ 51`), that result is not negative and lies within
`Y / 2 ^ 50` of the real quotient `Y / 0.262`; the bytes `[0x64, 0x00]`
(`Y = 3000`) give `1573728474870229 / 2 ^ 37`, which is not the real quotient
`1500000 / 131`. -/
theorem linearDataFormatOld_value (d0 d1 : Byte) :
    word 32 d1 d0 = d1.val * 256 + d0.val ∧
    (d1.val * 256 + d0.val) * 30 < 2 ^ 32 ∧
    (d1.val * 256 + d0.val) * 30 % 2 ^ 14 ≤ 16383 ∧
    linearDataFormatOld [d0, d1] =
      some (float64 ((((d1.val * 256 + d0.val) * 30 % 2 ^ 14 : Nat) : ℚ) /
        float64 (262 / 1000))) ∧
    (∀ y, linearDataFormatOld [d0, d1] = some y → 0 ≤ y) ∧
    (∀ y, linearDataFormatOld [d0, d1] = some y →
      |y - (((d1.val * 256 + d0.val) * 30 % 2 ^ 14 : Nat) : ℚ) / (262 / 1000)| ≤
        (((d1.val * 256 + d0.val) * 30 % 2 ^ 14 : Nat) : ℚ) / 2 ^ 50) ∧
    float64 (262 / 1000) = 589971551185535 / 2 ^ 51 ∧
    linearDataFormatOld [0x64, 0x00] = some (1573728474870229 / 2 ^ 37) ∧
    linearDataFormatOld [0x64, 0x00] ≠ some (3000 / (262 / 1000)) := by
  have h1 := d1.isLt
  have h0 := d0.isLt
  have hlt : (d1.val * 256 + d0.val) * 30 < 2 ^ 32 := by omega
  have hc : float64 (262 / 1000) = 589971551185535 / 2251799813685248 := float64_constant
  have hval : linearDataFormatOld [d0, d1] =
      some (float64 ((((d1.val * 256 + d0.val) * 30 % 2 ^ 14 : Nat) : ℚ) /
        float64 (262 / 1000))) := by
    have hm : (0x3FFF : Nat) = 2 ^ 14 - 1 := by decide
    have hy : ((word 32 d1 d0 * 30) % 2 ^ 32) &&& 0x3FFF
        = (d1.val * 256 + d0.val) * 30 % 2 ^ 14 := by
      rw [word_eq, Nat.mod_eq_of_lt hlt, hm, Nat.and_pow_two_sub_one_eq_mod]
    have h : linearDataFormatOld [d0, d1] =
        some (float64 (((((word 32 d1 d0 * 30) % 2 ^ 32) &&& 0x3FFF : Nat) : ℚ) /
          float64 (262 / 1000))) := rfl
    rw [h, hy]
  refine ⟨word_eq d1 d0, hlt, by omega, hval, ?_, ?_, by rw [hc]; norm_num, by decide!, by decide!⟩
  · intro y hy
    rw [hval] at hy
    cases hy
    apply float64_nonneg
    rw [hc]
    positivity
  · intro y hy
    rw [hval] at hy
    cases hy
    rw [hc]
    generalize (d1.val * 256 + d0.val) * 30 % 2 ^ 14 = Y
    rcases Nat.eq_zero_or_pos Y with hY0 | hYpos
    · subst hY0
      simp [float64]
    · have hY1 : (1 : ℚ) ≤ (Y : ℚ) := by exact_mod_cast hYpos
      have hx : (2 : ℚ) ^ (-1022 : Int) ≤
          (Y : ℚ) / (589971551185535 / 2251799813685248) := by
        have h2 : (2 : ℚ) ^ (-1022 : Int) ≤ 1 := by
          rw [zpow_neg]
          exact inv_le_one_of_one_le₀ (one_le_zpow₀ (by norm_num) (by norm_num))
        have h3 : (1 : ℚ) ≤ (Y : ℚ) / (589971551185535 / 2251799813685248) := by
          rw [le_div_iff₀ (by norm_num)]
          linarith
        linarith
      have herr := float64_error _ hx
      have h53 : (2 : ℚ) ^ (-53 : Int) = 1 / 9007199254740992 := by norm_num
      rw [h53] at herr
      have hdiff : (Y : ℚ) / (589971551185535 / 2251799813685248) - (Y : ℚ) / (262 / 1000) =
          (Y : ℚ) * (2251799813685248 / 589971551185535 - 1000 / 262) := by
        field_simp
        ring
      rw [abs_le] at herr ⊢
      have hYnn : (0 : ℚ) ≤ (Y : ℚ) := by linarith
      constructor
      · nlinarith [herr.1, herr.2, hdiff]
      · nlinarith [herr.1, herr.2, hdiff]

theorem stringsContains_iff (s substr : GoString) :
    stringsContains s substr = true ↔ substr <:+: s := by
  induction s with
  | nil => simp [stringsContains, List.isEmpty_iff]
  | cons c cs ih =>
    simp only [stringsContains, Bool.or_eq_true, ih, List.infix_cons_iff,
      List.isPrefixOf_iff_prefix]

theorem checkLoop_iff (s : GoString) (table : List GoString) :
    checkLoop s table = true ↔ ∃ e ∈ table, e <:+: s := by
  induction table with
  | nil => simp [checkLoop]
  | cons p ps ih =>
    by_cases h : stringsContains s p = true
    · simp [checkLoop, h, (stringsContains_iff s p).1 h]
    · have h' : ¬ p <:+: s := fun hp => h ((stringsContains_iff s p).2 hp)
      simp [checkLoop, h, ih, h']

/-- C6: `checkNoneStandardSMCPowerSupplies s` holds exactly when one of the ten
table entries is a substring of `s` or `s` is `"PWS-920P-1R2"`; `"PWS-721P"` and
`"PWS-920P-1R2"` are non-standard; and `isSMCOldPower s` holds exactly when
`"721"` is a substring of `s`. -/
theorem checkNoneStandardSMCPowerSupplies_iff :
    (∀ s : GoString, checkNoneStandardSMCPowerSupplies s = true ↔
      ((∃ e ∈ noneStandardSMCPowerSupplies, e <:+: s) ∨ s = lit "PWS-920P-1R2")) ∧
    noneStandardSMCPowerSupplies.length = 10 ∧
    checkNoneStandardSMCPowerSupplies (lit "PWS-721P") = true ∧
    checkNoneStandardSMCPowerSupplies (lit "PWS-920P-1R2") = true ∧
    (∀ s : GoString, isSMCOldPower s = true ↔ lit "721" <:+: s) := by
  refine ⟨?_, rfl, by decide, by decide, fun s => stringsContains_iff s _⟩
  intro s
  by_cases h : checkLoop s noneStandardSMCPowerSupplies = true
  · simp [checkNoneStandardSMCPowerSupplies, h, (checkLoop_iff s _).1 h]
  · have h' : ¬ ∃ e ∈ noneStandardSMCPowerSupplies, e <:+: s :=
      fun he => h ((checkLoop_iff s _).2 he)
    simp [checkNoneStandardSMCPowerSupplies, h, h']

/-! ## Theorems: status decoding -/

theorem decodeStatus_nonstandard (model : GoString) (addr status : Byte)
    (h : checkNoneStandardSMCPowerSupplies model = true) :
    decodeStatus model addr status [] = labelsOf nonStandardStatusBits status := by
  simp only [decodeStatus, h, if_true]
  revert status
  decide!

theorem decodeStatus_standard (model : GoString) (addr status : Byte)
    (h : checkNoneStandardSMCPowerSupplies model = false) (ha : addr.val < 0xB0) :
    decodeStatus model addr status [] =
      (if status.val = 0 ∨ status.val &&& 0x01 ≠ 0 ∨
          (status.val &&& 0x02 ≠ 0 ∧ status.val &&& 0x40 = 0)
        then [lit "OK"] else []) ++ labelsOf standardStatusBits status := by
  have ha' : ¬ addr.val ≥ 0xB0 := by omega
  simp only [decodeStatus, h, ha', if_false, Bool.false_eq_true]
  revert status
  decide!

theorem decodeStatus_high (model : GoString) (addr status : Byte)
    (h : checkNoneStandardSMCPowerSupplies model = false) (ha : 0xB0 ≤ addr.val) :
    decodeStatus model addr status [] = [] := by
  simp [decodeStatus, h, ha]

theorem ok_not_mem_standard (status : Byte) :
    lit "OK" ∉ labelsOf standardStatusBits status := by
  revert status
  decide!

/-! ## Theorems: the runs of `GetPMBusInfo` -/

theorem failFast_pure (t : Transport) {α : Type} (x : α) :
    FailFast t [] (fun log => (log, some (x, none))) := by
  intro log
  refine ⟨[], by simp, List.Sublist.refl _, ?_, ?_⟩
  · intro i r e h; simp at h
  · intro v e h; simp at h

theorem failFast_readValue (t : Transport) {α : Type} (addr rsize cmd : Byte) (zero : α)
    (dec : List Byte → Option α) :
    FailFast t [rawRead addr rsize cmd] (readValue t addr rsize cmd zero dec) := by
  intro log
  refine ⟨[rawRead addr rsize cmd], ?_, List.Sublist.refl _, ?_, ?_⟩
  · simp only [readValue, sendraw, rawRead]; split <;> simp_all
  · intro i r e hr he
    cases i with
    | zero =>
      simp at hr
      subst hr
      simp only [List.take_zero, List.append_nil] at he
      refine ⟨rfl, zero, ?_⟩
      simp only [readValue, sendraw]
      simp only [rawRead] at he
      rw [he]
    | succ n => simp at hr
  · intro v e h
    refine ⟨[], rawRead addr rsize cmd, rfl, ?_⟩
    simp only [readValue, sendraw] at h
    simp only [List.append_nil, rawRead]
    cases ht : t log { Bus := 7, Addr := addr, Data := [cmd], Rsize := rsize } with
    | error e' => rw [ht] at h; simp at h; rw [h.2]
    | ok m => rw [ht] at h; simp at h

theorem readBlock_succ (t : Transport) (addr : Byte) (base : Nat) (n idx : Nat)
    (acc : List Byte) (log : List MasterRequest) :
    readBlock t addr base (n + 1) idx acc log =
      match t log (rawRead addr 1 (uint8 (base + idx))) with
      | .error err => (log ++ [rawRead addr 1 (uint8 (base + idx))], some ([], some err))
      | .ok m =>
        match m.Data[0]? with
        | none => (log ++ [rawRead addr 1 (uint8 (base + idx))], none)
        | some d0 =>
          if d0.val < 0x1F ∨ d0.val > 0x7E then
            (log ++ [rawRead addr 1 (uint8 (base + idx))], some (acc, none))
          else readBlock t addr base n (idx + 1) (acc ++ [d0])
            (log ++ [rawRead addr 1 (uint8 (base + idx))]) := by
  simp only [readBlock, sendraw, rawRead]
  cases t log { Bus := 7, Addr := addr, Data := [uint8 (base + idx)], Rsize := 1 } <;> rfl

theorem failFast_readBlock (t : Transport) (addr : Byte) (base : Nat) (todo idx : Nat)
    (acc : List Byte) :
    FailFast t (blockReads addr base todo idx) (readBlock t addr base todo idx acc) := by
  induction todo generalizing idx acc with
  | zero =>
    intro log
    refine ⟨[], by simp [readBlock], List.Sublist.refl _, ?_, ?_⟩
    · intro i r e h; simp at h
    · intro v e h; simp [readBlock] at h
  | succ n ih =>
    intro log
    cases ht : t log (rawRead addr 1 (uint8 (base + idx))) with
    | error e' =>
      have hrun : readBlock t addr base (n + 1) idx acc log =
          (log ++ [rawRead addr 1 (uint8 (base + idx))], some ([], some e')) := by
        rw [readBlock_succ, ht]
      refine ⟨[rawRead addr 1 (uint8 (base + idx))], by rw [hrun], ?_, ?_, ?_⟩
      · simp [blockReads]
      · intro i r e hr he
        cases i with
        | zero =>
          simp at hr
          subst hr
          simp only [List.take_zero, List.append_nil] at he
          rw [ht] at he
          cases he
          exact ⟨rfl, [], by rw [hrun]⟩
        | succ k => simp at hr
      · intro v e h
        rw [hrun] at h
        simp at h
        exact ⟨[], _, rfl, by simpa [h.2] using ht⟩
    | ok m =>
      cases hd : m.Data[0]? with
      | none =>
        have hrun : readBlock t addr base (n + 1) idx acc log =
            (log ++ [rawRead addr 1 (uint8 (base + idx))], none) := by
          rw [readBlock_succ, ht]
          simp only [hd]
        refine ⟨[rawRead addr 1 (uint8 (base + idx))], by rw [hrun], ?_, ?_, ?_⟩
        · simp [blockReads]
        · intro i r e hr he
          cases i with
          | zero =>
            simp at hr
            subst hr
            simp only [List.take_zero, List.append_nil] at he
            rw [ht] at he
            cases he
          | succ k => simp at hr
        · intro v e h
          rw [hrun] at h
          simp at h
      | some d0 =>
        by_cases hb : d0.val < 0x1F ∨ d0.val > 0x7E
        · have hrun : readBlock t addr base (n + 1) idx acc log =
              (log ++ [rawRead addr 1 (uint8 (base + idx))], some (acc, none)) := by
            rw [readBlock_succ, ht]
            simp only [hd, hb, if_true]
          refine ⟨[rawRead addr 1 (uint8 (base + idx))], by rw [hrun], ?_, ?_, ?_⟩
          · simp [blockReads]
          · intro i r e hr he
            cases i with
            | zero =>
              simp at hr
              subst hr
              simp only [List.take_zero, List.append_nil] at he
              rw [ht] at he
              cases he
            | succ k => simp at hr
          · intro v e h
            rw [hrun] at h
            simp at h
        · have hrun : readBlock t addr base (n + 1) idx acc log =
              readBlock t addr base n (idx + 1) (acc ++ [d0])
                (log ++ [rawRead addr 1 (uint8 (base + idx))]) := by
            rw [readBlock_succ, ht]
            simp only [hd, hb, if_false]
          obtain ⟨new, hlog, hsub, hfail, herr⟩ :=
            ih (idx + 1) (acc ++ [d0]) (log ++ [rawRead addr 1 (uint8 (base + idx))])
          refine ⟨rawRead addr 1 (uint8 (base + idx)) :: new, ?_, ?_, ?_, ?_⟩
          · rw [hrun, hlog]; simp
          · simp only [blockReads]
            exact hsub.cons₂ _
          · intro i r e hr he
            rw [hrun]
            cases i with
            | zero =>
              simp at hr
              subst hr
              simp only [List.take_zero, List.append_nil] at he
              rw [ht] at he
              cases he
            | succ k =>
              simp only [List.getElem?_cons_succ] at hr
              simp only [List.take_succ_cons] at he
              have he' : t (log ++ [rawRead addr 1 (uint8 (base + idx))] ++ List.take k new) r
                  = .error e := by simpa using he
              obtain ⟨hlen, hv⟩ := hfail k r e hr he'
              exact ⟨by simp [hlen], hv⟩
          · intro v e h
            rw [hrun] at h
            obtain ⟨init, r, hnew, hr⟩ := herr v e h
            exact ⟨rawRead addr 1 (uint8 (base + idx)) :: init, r, by simp [hnew],
              by simpa using hr⟩

theorem failFast_readThen (t : Transport) {α : Type} (s1 s2 : List MasterRequest)
    (read : M (α × Option Error)) (set : α → PMBusInfo)
    (next : α → PMBusInfo → M (PMBusInfo × Option Error))
    (h1 : FailFast t s1 read) (h2 : ∀ v info, FailFast t s2 (next v info)) :
    FailFast t (s1 ++ s2) (readThen read set next) := by
  intro log
  obtain ⟨new1, hlog1, hsub1, hfail1, herr1⟩ := h1 log
  rcases hr : read log with ⟨log1, out⟩
  rw [hr] at hlog1 hfail1 herr1
  simp only at hlog1 hfail1 herr1
  subst hlog1
  have hsub1' : new1.Sublist (s1 ++ s2) := hsub1.trans (List.sublist_append_left s1 s2)
  match out, hfail1, herr1, hr with
  | none, hfail1, herr1, hr =>
    have hrun : readThen read set next log = (log ++ new1, none) := by
      simp only [readThen, hr]
    refine ⟨new1, by rw [hrun], hsub1', ?_, ?_⟩
    · intro i r e hi he
      obtain ⟨_, v, hv⟩ := hfail1 i r e hi he
      cases hv
    · intro v e h
      rw [hrun] at h
      cases h
  | some (v, some e'), hfail1, herr1, hr =>
    have hrun : readThen read set next log = (log ++ new1, some (set v, some e')) := by
      simp only [readThen, hr]
    refine ⟨new1, by rw [hrun], hsub1', ?_, ?_⟩
    · intro i r e hi he
      obtain ⟨hlen, v', hv⟩ := hfail1 i r e hi he
      cases hv
      exact ⟨hlen, set v, by rw [hrun]⟩
    · intro v' e h
      rw [hrun] at h
      cases h
      exact herr1 v e' rfl
  | some (v, none), hfail1, herr1, hr =>
    have hrun : readThen read set next log = next v (set v) (log ++ new1) := by
      simp only [readThen, hr]
    obtain ⟨new2, hlog2, hsub2, hfail2, herr2⟩ := h2 v (set v) (log ++ new1)
    refine ⟨new1 ++ new2, ?_, hsub1.append hsub2, ?_, ?_⟩
    · rw [hrun, hlog2, List.append_assoc]
    · intro i r e hi he
      rw [hrun]
      by_cases hlt : i < new1.length
      · rw [List.getElem?_append_left hlt] at hi
        rw [List.take_append_of_le_length (Nat.le_of_lt hlt)] at he
        obtain ⟨_, v', hv⟩ := hfail1 i r e hi he
        cases hv
      · have hge : new1.length ≤ i := Nat.le_of_not_lt hlt
        rw [List.getElem?_append_right hge] at hi
        have htake : List.take i (new1 ++ new2) = new1 ++ List.take (i - new1.length) new2 := by
          rw [List.take_append_eq_append_take, List.take_of_length_le hge]
        rw [htake, ← List.append_assoc] at he
        obtain ⟨hlen, hv⟩ := hfail2 (i - new1.length) r e hi he
        refine ⟨?_, hv⟩
        rw [List.length_append, hlen]
        omega
    · intro v' e h
      rw [hrun] at h
      obtain ⟨init, r, hnew, hr'⟩ := herr2 v' e h
      exact ⟨new1 ++ init, r, by rw [hnew, List.append_assoc],
        by rw [← List.append_assoc]; exact hr'⟩

theorem GetPMBusInfo_failFast (t : Transport) (addr : Byte) :
    FailFast t (schedule addr) (GetPMBusInfo t addr) := by
  unfold GetPMBusInfo schedule
  refine failFast_readThen t _ _ _ _ _ (failFast_readBlock t addr _ _ _ _) fun _ _ => ?_
  refine failFast_readThen t _ _ _ _ _ (failFast_readBlock t addr _ _ _ _) fun _ _ => ?_
  refine failFast_readThen t _ _ _ _ _ (failFast_readBlock t addr _ _ _ _) fun _ _ => ?_
  refine failFast_readThen t _ _ _ _ _ (failFast_readValue t addr _ _ _ _) fun _ _ => ?_
  refine failFast_readThen t _ _ _ _ _ (failFast_readValue t addr _ _ _ _) fun _ _ => ?_
  refine failFast_readThen t _ _ _ _ _ (failFast_readValue t addr _ _ _ _) fun _ _ => ?_
  refine failFast_readThen t _ _ _ _ _ (failFast_readValue t addr _ _ _ _) fun _ _ => ?_
  refine failFast_readThen t _ _ _ _ _ (failFast_readValue t addr _ _ _ _) fun _ _ => ?_
  refine failFast_readThen t _ _ _ _ _ (failFast_readValue t addr _ _ _ _) fun _ _ => ?_
  refine failFast_readThen t _ _ _ _ _ (failFast_readValue t addr _ _ _ _) fun _ _ => ?_
  refine failFast_readThen t _ _ _ _ _ (failFast_readValue t addr _ _ _ _) fun _ _ => ?_
  refine failFast_readThen t _ _ _ _ _ (failFast_readValue t addr _ _ _ _) fun _ _ => ?_
  refine failFast_readThen t _ _ _ _ _ (failFast_readValue t addr _ _ _ _) fun _ _ => ?_
  refine failFast_readThen t _ _ _ _ _ (failFast_readValue t addr _ _ _ _) fun _ _ => ?_
  refine failFast_readThen t _ _ _ _ _ (failFast_readValue t addr _ _ _ _) fun _ _ => ?_
  refine failFast_readThen t _ _ _ _ _ (failFast_readValue t addr _ _ _ _) fun _ _ => ?_
  refine failFast_readThen t _ _ _ _ _ (failFast_readValue t addr _ _ _ _) fun _ _ => ?_
  exact failFast_pure t _

theorem schedule_nodup (addr : Byte) : (schedule addr).Nodup := by
  have h : (schedule addr).map MasterRequest.Data =
      [[0xD0], [0xD1], [0xD2], [0xD3], [0xD4], [0xD5], [0xD6], [0xD7], [0xD8], [0xD9], [0xDA],
       [0xDB], [0xDC], [0xDD], [0xDE],
       [0xE0], [0xE1], [0xE2], [0xE3], [0xE4], [0xE5], [0xE6], [0xE7], [0xE8], [0xE9], [0xEA],
       [0xEB], [0xEC],
       [0xF3], [0xF4], [0xF5],
       [0x98], [0xFC], [0x20], [0x78], [0x88], [0x89], [0x8B], [0x8C], [0x8D], [0x8E], [0x90],
       [0x91], [0x97], [0x96]] := rfl
  refine List.Nodup.of_map MasterRequest.Data ?_
  rw [h]
  decide

theorem readThen_ok {α : Type} {read : M (α × Option Error)} {set : α → PMBusInfo}
    {next : α → PMBusInfo → M (PMBusInfo × Option Error)} {log log' : List MasterRequest}
    {info : PMBusInfo} (h : readThen read set next log = (log', some (info, none))) :
    ∃ log1 v, read log = (log1, some (v, none)) ∧
      next v (set v) log1 = (log', some (info, none)) := by
  rcases hr : read log with ⟨log1, out⟩
  match out, hr with
  | none, hr => simp [readThen, hr] at h
  | some (v, some e), hr => simp [readThen, hr] at h
  | some (v, none), hr =>
    refine ⟨log1, v, rfl, ?_⟩
    simpa [readThen, hr] using h

theorem readValue_ok {α : Type} {t : Transport} {addr rsize cmd : Byte} {zero : α}
    {dec : List Byte → Option α} {log log1 : List MasterRequest} {v : α}
    (h : readValue t addr rsize cmd zero dec log = (log1, some (v, none))) :
    log1 = log ++ [rawRead addr rsize cmd] ∧
      ∃ m, t log (rawRead addr rsize cmd) = .ok m ∧ dec m.Data = some v := by
  simp only [readValue, sendraw] at h
  cases ht : t log (rawRead addr rsize cmd) with
  | error e =>
    simp only [rawRead] at ht
    simp [ht] at h
  | ok m =>
    simp only [rawRead] at ht
    simp only [ht, Prod.mk.injEq, Option.map_eq_some'] at h
    obtain ⟨h1, a, ha, hv⟩ := h
    simp only [Prod.mk.injEq, and_true] at hv
    subst hv
    exact ⟨h1.symm, m, rfl, ha⟩

theorem GetPMBusInfo_status_read {t : Transport} {addr : Byte} {log0 log : List MasterRequest}
    {info : PMBusInfo} (h : GetPMBusInfo t addr log0 = (log, some (info, none))) :
    ∃ pre m s rest, log = pre ++ rawRead addr 1 0x78 :: rawRead addr 2 0x88 :: rest ∧
      t pre (rawRead addr 1 0x78) = .ok m ∧ m.Data[0]? = some s ∧
      info.Status = decodeStatus info.ModuleNumber addr s [] := by
  unfold GetPMBusInfo at h
  obtain ⟨log1, v1, h1, h⟩ := readThen_ok h
  obtain ⟨log2, v2, h2, h⟩ := readThen_ok h
  obtain ⟨log3, v3, h3, h⟩ := readThen_ok h
  obtain ⟨log4, v4, h4, h⟩ := readThen_ok h
  obtain ⟨log5, v5, h5, h⟩ := readThen_ok h
  obtain ⟨log6, v6, h6, h⟩ := readThen_ok h
  obtain ⟨log7, v7, h7, h⟩ := readThen_ok h
  obtain ⟨log8, v8, h8, h⟩ := readThen_ok h
  obtain ⟨log9, v9, h9, h⟩ := readThen_ok h
  obtain ⟨log10, v10, h10, h⟩ := readThen_ok h
  obtain ⟨log11, v11, h11, h⟩ := readThen_ok h
  obtain ⟨log12, v12, h12, h⟩ := readThen_ok h
  obtain ⟨log13, v13, h13, h⟩ := readThen_ok h
  obtain ⟨log14, v14, h14, h⟩ := readThen_ok h
  obtain ⟨log15, v15, h15, h⟩ := readThen_ok h
  obtain ⟨log16, v16, h16, h⟩ := readThen_ok h
  obtain ⟨log17, v17, h17, h⟩ := readThen_ok h
  obtain ⟨rfl, m7, hm7, hd7⟩ := readValue_ok h7
  obtain ⟨rfl, -⟩ := readValue_ok h8
  obtain ⟨rfl, -⟩ := readValue_ok h9
  obtain ⟨rfl, -⟩ := readValue_ok h10
  obtain ⟨rfl, -⟩ := readValue_ok h11
  obtain ⟨rfl, -⟩ := readValue_ok h12
  obtain ⟨rfl, -⟩ := readValue_ok h13
  obtain ⟨rfl, -⟩ := readValue_ok h14
  obtain ⟨rfl, -⟩ := readValue_ok h15
  obtain ⟨rfl, -⟩ := readValue_ok h16
  obtain ⟨rfl, -⟩ := readValue_ok h17
  simp only [Prod.mk.injEq, Option.some.injEq, and_true] at h
  obtain ⟨hlog, hinfo⟩ := h
  subst hlog hinfo
  exact ⟨log6, m7, v7,
    [rawRead addr 2 0x89, rawRead addr 2 0x8B, rawRead addr 2 0x8C, rawRead addr 2 0x8D,
      rawRead addr 2 0x8E, rawRead addr 2 0x90, rawRead addr 2 0x91, rawRead addr 2 0x97,
      rawRead addr 2 0x96],
    by simp only [List.append_assoc, List.singleton_append, List.cons_append, List.nil_append],
    hm7, hd7, rfl⟩

theorem nodup_split_unique {α : Type} {x : α} :
    ∀ {a a' b b' : List α}, (a ++ x :: b).Nodup → a ++ x :: b = a' ++ x :: b' → a = a'
  | [], [], _, _, _, _ => rfl
  | [], y :: a'', b, b', hn, h => by
    simp only [List.nil_append, List.cons_append, List.cons.injEq] at h
    obtain ⟨rfl, hb⟩ := h
    rw [List.nil_append, List.nodup_cons] at hn
    exact absurd (by rw [hb]; simp) hn.1
  | y :: a1, [], b, b', hn, h => by
    simp only [List.nil_append, List.cons_append, List.cons.injEq] at h
    obtain ⟨rfl, -⟩ := h
    rw [List.cons_append, List.nodup_cons] at hn
    exact absurd (by simp) hn.1
  | y :: a1, z :: a2, b, b', hn, h => by
    simp only [List.cons_append, List.cons.injEq] at h
    obtain ⟨rfl, ht⟩ := h
    rw [List.cons_append, List.nodup_cons] at hn
    rw [nodup_split_unique hn.2 ht]

theorem readValue_eq {α : Type} (t : Transport) (addr rsize cmd : Byte) (zero : α)
    (dec : List Byte → Option α) (log : List MasterRequest) :
    readValue t addr rsize cmd zero dec log =
      (log ++ [rawRead addr rsize cmd],
        match t log (rawRead addr rsize cmd) with
        | .error err => some (zero, some err)
        | .ok m => (dec m.Data).map (fun v => (v, none))) := by
  simp only [readValue, sendraw, rawRead]
  cases t log { Bus := 7, Addr := addr, Data := [cmd], Rsize := rsize } <;> rfl

theorem readThen_log {α : Type} (t : Transport) (s2 : List MasterRequest)
    (read : M (α × Option Error)) (set : α → PMBusInfo)
    (next : α → PMBusInfo → M (PMBusInfo × Option Error)) (log : List MasterRequest)
    (h2 : ∀ v info, FailFast t s2 (next v info)) :
    ∃ more, (readThen read set next log).1 = (read log).1 ++ more := by
  rcases hr : read log with ⟨log1, out⟩
  match out, hr with
  | none, hr => exact ⟨[], by simp only [readThen, hr, List.append_nil]⟩
  | some (v, some e), hr => exact ⟨[], by simp only [readThen, hr, List.append_nil]⟩
  | some (v, none), hr =>
    obtain ⟨new, hnew, -⟩ := h2 v (set v) log1
    exact ⟨new, by simp only [readThen, hr]; exact hnew⟩

theorem statusThenNext_skip (t : Transport) (addr : Byte) {α : Type} (s1 : List MasterRequest)
    (read : M (α × Option Error)) (set : α → PMBusInfo)
    (next : α → PMBusInfo → M (PMBusInfo × Option Error)) (log : List MasterRequest)
    (h1 : FailFast t s1 read) (hs : rawRead addr 1 0x78 ∉ s1)
    (hlog : rawRead addr 1 0x78 ∉ log)
    (hnext : ∀ v log1, rawRead addr 1 0x78 ∉ log1 →
      ((next v (set v) log1).1.Nodup → StatusThenNext t addr (next v (set v) log1).1)) :
    (readThen read set next log).1.Nodup →
      StatusThenNext t addr (readThen read set next log).1 := by
  obtain ⟨new1, hl1, hsub1, -, -⟩ := h1 log
  have hx : rawRead addr 1 0x78 ∉ (read log).1 := by
    rw [hl1, List.mem_append]
    exact fun h => h.elim hlog (fun h' => hs (hsub1.subset h'))
  rcases hr : read log with ⟨log1, out⟩
  rw [hr] at hx
  have hstop : (readThen read set next log).1 = log1 →
      StatusThenNext t addr (readThen read set next log).1 := by
    intro hrun pre m s hpre
    rw [hrun] at hpre
    exact absurd (hpre.subset (by simp)) hx
  match out, hr with
  | none, hr => exact fun _ => hstop (by simp only [readThen, hr])
  | some (v, some e), hr => exact fun _ => hstop (by simp only [readThen, hr])
  | some (v, none), hr =>
    have hrun : readThen read set next log = next v (set v) log1 := by
      simp only [readThen, hr]
    rw [hrun]
    exact hnext v log1 hx

theorem statusThenNext_status (t : Transport) (addr : Byte) (s2 : List MasterRequest)
    (set : Byte → PMBusInfo) (zero : ℚ) (dec : List Byte → Option ℚ)
    (set' : Byte → PMBusInfo → ℚ → PMBusInfo)
    (next : Byte → PMBusInfo → ℚ → PMBusInfo → M (PMBusInfo × Option Error))
    (log : List MasterRequest)
    (h2 : ∀ st info v info', FailFast t s2 (next st info v info')) :
    (readThen (GetPMBusStatus t addr) set fun st info =>
        readThen (readValue t addr 2 0x88 zero dec) (set' st info) (next st info) ) log |>.1.Nodup →
      StatusThenNext t addr
        (readThen (GetPMBusStatus t addr) set (fun st info =>
          readThen (readValue t addr 2 0x88 zero dec) (set' st info) (next st info)) log).1 := by
  have hfst : ∀ m : M (PMBusInfo × Option Error), ∀ L : List MasterRequest,
      (m log).1 = L → (L.Nodup → StatusThenNext t addr L) →
      ((m log).1.Nodup → StatusThenNext t addr (m log).1) := by
    intro m L h; rw [h]; exact id
  have hstatus : ∀ o, GetPMBusStatus t addr log = (log ++ [rawRead addr 1 0x78], o) →
      (∀ v, o ≠ some (v, none)) →
      ∀ pre m s, (pre ++ [rawRead addr 1 0x78]) <+: (log ++ [rawRead addr 1 0x78]) →
        (log ++ [rawRead addr 1 0x78]).Nodup →
        t pre (rawRead addr 1 0x78) = .ok m → m.Data[0]? = some s → False := by
    intro o ho hne pre m s hpre hn hm hs
    obtain ⟨rest, hrest⟩ := hpre
    have hsplit : log ++ rawRead addr 1 0x78 :: [] = pre ++ rawRead addr 1 0x78 :: rest := by
      rw [← hrest]; simp
    have hpl : log = pre := nodup_split_unique hn hsplit
    subst hpl
    have : GetPMBusStatus t addr log = (log ++ [rawRead addr 1 0x78], some (s, none)) := by
      rw [GetPMBusStatus, readValue_eq, hm]
      simp only [hs, Option.map_some']
    rw [this] at ho
    exact hne s (by simpa using ho.symm)
  have hl : (GetPMBusStatus t addr log).1 = log ++ [rawRead addr 1 0x78] := by
    rw [GetPMBusStatus, readValue_eq]
  rcases hr : GetPMBusStatus t addr log with ⟨log1, out⟩
  rw [hr] at hl
  simp only at hl
  subst hl
  match out, hr with
  | none, hr =>
    refine hfst _ (log ++ [rawRead addr 1 0x78]) (by simp only [readThen, hr]) ?_
    intro hn pre m s hpre hm hs
    exact (hstatus none hr (by simp) pre m s hpre hn hm hs).elim
  | some (v, some e), hr =>
    refine hfst _ (log ++ [rawRead addr 1 0x78]) (by simp only [readThen, hr]) ?_
    intro hn pre m s hpre hm hs
    exact (hstatus _ hr (by simp) pre m s hpre hn hm hs).elim
  | some (v, none), hr =>
    obtain ⟨more, hmore⟩ := readThen_log t s2 (readValue t addr 2 0x88 zero dec)
      (set' v (set v)) (next v (set v)) (log ++ [rawRead addr 1 0x78]) (h2 v (set v))
    rw [readValue_eq] at hmore
    refine hfst _ (log ++ [rawRead addr 1 0x78] ++ [rawRead addr 2 0x88] ++ more)
      (by simp only [readThen, hr]; exact hmore) ?_
    intro hn pre m s hpre hm hs
    obtain ⟨rest, hrest⟩ := hpre
    have hsplit : log ++ rawRead addr 1 0x78 :: rawRead addr 2 0x88 :: more
        = pre ++ rawRead addr 1 0x78 :: rest := by
      have := hrest.symm
      simpa using this
    have hn' : (log ++ rawRead addr 1 0x78 :: rawRead addr 2 0x88 :: more).Nodup := by
      simpa using hn
    have hpl : log = pre := nodup_split_unique hn' hsplit
    subst hpl
    exact ⟨more, by simp⟩

theorem status_not_mem (addr : Byte) (l : List MasterRequest)
    (h : [(0x78 : Byte)] ∉ l.map MasterRequest.Data) : rawRead addr 1 0x78 ∉ l :=
  fun hm => h (List.mem_map_of_mem MasterRequest.Data hm)

theorem GetPMBusInfo_statusThenNext (t : Transport) (addr : Byte) :
    StatusThenNext t addr (GetPMBusInfo t addr []).1 := by
  have hn : (GetPMBusInfo t addr []).1.Nodup := by
    obtain ⟨new, hlog, hsub, -, -⟩ := GetPMBusInfo_failFast t addr []
    rw [hlog, List.nil_append]
    exact hsub.nodup (schedule_nodup addr)
  revert hn
  unfold GetPMBusInfo
  refine statusThenNext_skip t addr _ _ _ _ _ (failFast_readBlock t addr _ _ _ _)
    (status_not_mem addr _ (by simp +decide [blockReads, rawRead, uint8])) (by simp) fun _ _ hx => ?_
  refine statusThenNext_skip t addr _ _ _ _ _ (failFast_readBlock t addr _ _ _ _)
    (status_not_mem addr _ (by simp +decide [blockReads, rawRead, uint8])) hx fun _ _ hx => ?_
  refine statusThenNext_skip t addr _ _ _ _ _ (failFast_readBlock t addr _ _ _ _)
    (status_not_mem addr _ (by simp +decide [blockReads, rawRead, uint8])) hx fun _ _ hx => ?_
  refine statusThenNext_skip t addr _ _ _ _ _ (failFast_readValue t addr _ _ _ _)
    (status_not_mem addr _ (by simp +decide [blockReads, rawRead, uint8])) hx fun _ _ hx => ?_
  refine statusThenNext_skip t addr _ _ _ _ _ (failFast_readValue t addr _ _ _ _)
    (status_not_mem addr _ (by simp +decide [blockReads, rawRead, uint8])) hx fun _ _ hx => ?_
  refine statusThenNext_skip t addr _ _ _ _ _ (failFast_readValue t addr _ _ _ _)
    (status_not_mem addr _ (by simp +decide [blockReads, rawRead, uint8])) hx fun VOutMode _ hx => ?_
  refine statusThenNext_status t addr
    ([rawRead addr 2 0x89] ++ ([rawRead addr 2 0x8B] ++ ([rawRead addr 2 0x8C] ++
      ([rawRead addr 2 0x8D] ++ ([rawRead addr 2 0x8E] ++ ([rawRead addr 2 0x90] ++
      ([rawRead addr 2 0x91] ++ ([rawRead addr 2 0x97] ++ ([rawRead addr 2 0x96] ++ [])))))))))
    _ 0 linearOfData _ _ _ fun _ _ _ _ => ?_
  refine failFast_readThen t _ _ _ _ _ (failFast_readValue t addr _ _ _ _) fun _ _ => ?_
  refine failFast_readThen t _ _ _ _ _ (failFast_readValue t addr _ _ _ _) fun _ _ => ?_
  refine failFast_readThen t _ _ _ _ _ (failFast_readValue t addr _ _ _ _) fun _ _ => ?_
  refine failFast_readThen t _ _ _ _ _ (failFast_readValue t addr _ _ _ _) fun _ _ => ?_
  refine failFast_readThen t _ _ _ _ _ (failFast_readValue t addr _ _ _ _) fun _ _ => ?_
  refine failFast_readThen t _ _ _ _ _ (failFast_readValue t addr _ _ _ _) fun _ _ => ?_
  refine failFast_readThen t _ _ _ _ _ (failFast_readValue t addr _ _ _ _) fun _ _ => ?_
  refine failFast_readThen t _ _ _ _ _ (failFast_readValue t addr _ _ _ _) fun _ _ => ?_
  refine failFast_readThen t _ _ _ _ _ (failFast_readValue t addr _ _ _ _) fun _ _ => ?_
  exact failFast_pure t _

/-- C7: in a run of `GetPMBusInfo` that returns without error for a model
number classified non-standard, the status read (sub-address `0x78`) was
answered with a first data byte `s`, and the status list is exactly the labels
of the bits of `s` among `0x01` "OK", `0x02` "Over Temperature Fault", `0x04`
"Under Voltage Fault", `0x08` "Over Current Fault", `0x10` "Over Voltage
Fault", `0x40` "OFF", in that order; it is `["OK"]` when `s = 0x01`. -/
theorem GetPMBusInfo_status_nonstandard (t : Transport) (addr : Byte) (info : PMBusInfo)
    (h : (GetPMBusInfo t addr []).2 = some (info, none))
    (hm : checkNoneStandardSMCPowerSupplies info.ModuleNumber = true) :
    ∃ pre m s rest, (GetPMBusInfo t addr []).1 = pre ++ rawRead addr 1 0x78 :: rest ∧
      t pre (rawRead addr 1 0x78) = .ok m ∧ m.Data[0]? = some s ∧
      info.Status = labelsOf nonStandardStatusBits s ∧
      (s = 0x01 → info.Status = [lit "OK"]) := by
  have hrun : GetPMBusInfo t addr [] = ((GetPMBusInfo t addr []).1, some (info, none)) := by
    rw [← h]
  obtain ⟨pre, m, s, rest, hlog, hm', hs, hst⟩ := GetPMBusInfo_status_read hrun
  have hlab : info.Status = labelsOf nonStandardStatusBits s := by
    rw [hst, decodeStatus_nonstandard _ _ _ hm]
  refine ⟨pre, m, s, _, hlog, hm', hs, hlab, ?_⟩
  intro h1
  rw [hlab, h1]
  decide

/-- Witness of C7: model "PWS-721P", status byte `0x01`. -/
theorem GetPMBusInfo_status_nonstandard_witness :
    (GetPMBusInfo (exampleTransport (lit "PWS-721P") 0x01) 0x58 []).2 =
      some (exampleInfo (lit "PWS-721P") [lit "OK"], none) ∧
    ∃ pre m s rest,
      (GetPMBusInfo (exampleTransport (lit "PWS-721P") 0x01) 0x58 []).1 =
        pre ++ rawRead 0x58 1 0x78 :: rest ∧
      exampleTransport (lit "PWS-721P") 0x01 pre (rawRead 0x58 1 0x78) = .ok m ∧
      m.Data[0]? = some s ∧
      (exampleInfo (lit "PWS-721P") [lit "OK"]).Status = labelsOf nonStandardStatusBits s ∧
      (s = 0x01 → (exampleInfo (lit "PWS-721P") [lit "OK"]).Status = [lit "OK"]) :=
  ⟨by decide!, GetPMBusInfo_status_nonstandard _ _ _ (by decide!) (by decide!)⟩

/-- C8: in a run of `GetPMBusInfo` that returns without error for a model
number that is not non-standard at an address below `0xB0`, the status read
was answered with a first data byte `s`, and the status list is "OK" (first,
once) exactly when `s = 0`, or bit `0x01` is set, or bit `0x02` is set while
bit `0x40` is clear, followed by the labels of the bits of `s` among `0x04`
"Over Temperature Fault", `0x08` "Under Voltage Fault", `0x10` "Over Current
Fault", `0x20` "Over Voltage Fault", `0x40` "OFF", `0x80` "Busy", in that
order. -/
theorem GetPMBusInfo_status_standard (t : Transport) (addr : Byte) (info : PMBusInfo)
    (h : (GetPMBusInfo t addr []).2 = some (info, none))
    (hm : checkNoneStandardSMCPowerSupplies info.ModuleNumber = false)
    (ha : addr.val < 0xB0) :
    ∃ pre m s rest, (GetPMBusInfo t addr []).1 = pre ++ rawRead addr 1 0x78 :: rest ∧
      t pre (rawRead addr 1 0x78) = .ok m ∧ m.Data[0]? = some s ∧
      info.Status =
        (if s.val = 0 ∨ s.val &&& 0x01 ≠ 0 ∨ (s.val &&& 0x02 ≠ 0 ∧ s.val &&& 0x40 = 0)
          then [lit "OK"] else []) ++ labelsOf standardStatusBits s ∧
      (lit "OK" ∈ info.Status ↔
        (s.val = 0 ∨ s.val &&& 0x01 ≠ 0 ∨ (s.val &&& 0x02 ≠ 0 ∧ s.val &&& 0x40 = 0))) ∧
      info.Status.count (lit "OK") ≤ 1 := by
  have hrun : GetPMBusInfo t addr [] = ((GetPMBusInfo t addr []).1, some (info, none)) := by
    rw [← h]
  obtain ⟨pre, m, s, rest, hlog, hm', hs, hst⟩ := GetPMBusInfo_status_read hrun
  have hlab := hst.trans (decodeStatus_standard _ addr s hm ha)
  have hno := ok_not_mem_standard s
  refine ⟨pre, m, s, _, hlog, hm', hs, hlab, ?_, ?_⟩
  · rw [hlab]
    by_cases hc : s.val = 0 ∨ s.val &&& 0x01 ≠ 0 ∨ (s.val &&& 0x02 ≠ 0 ∧ s.val &&& 0x40 = 0)
    · rw [if_pos hc]
      exact ⟨fun _ => hc, fun _ => List.mem_append_left _ (List.mem_singleton_self _)⟩
    · rw [if_neg hc, List.nil_append]
      exact ⟨fun hmem => absurd hmem hno, fun hc' => absurd hc' hc⟩
  · rw [hlab, List.count_append, List.count_eq_zero_of_not_mem hno]
    by_cases hc : s.val = 0 ∨ s.val &&& 0x01 ≠ 0 ∨ (s.val &&& 0x02 ≠ 0 ∧ s.val &&& 0x40 = 0)
    · rw [if_pos hc]
      simp
    · rw [if_neg hc]
      simp

/-- Witness of C8: model "PWS-605P" at address `0x58`, status byte `0x06`. -/
theorem GetPMBusInfo_status_standard_witness :
    (GetPMBusInfo (exampleTransport (lit "PWS-605P") 0x06) 0x58 []).2 =
      some (exampleInfo (lit "PWS-605P") [lit "OK", lit "Over Temperature Fault"], none) ∧
    ∃ pre m s rest,
      (GetPMBusInfo (exampleTransport (lit "PWS-605P") 0x06) 0x58 []).1 =
        pre ++ rawRead 0x58 1 0x78 :: rest ∧
      exampleTransport (lit "PWS-605P") 0x06 pre (rawRead 0x58 1 0x78) = .ok m ∧
      m.Data[0]? = some s ∧
      (exampleInfo (lit "PWS-605P") [lit "OK", lit "Over Temperature Fault"]).Status =
        (if s.val = 0 ∨ s.val &&& 0x01 ≠ 0 ∨ (s.val &&& 0x02 ≠ 0 ∧ s.val &&& 0x40 = 0)
          then [lit "OK"] else []) ++ labelsOf standardStatusBits s ∧
      (lit "OK" ∈ (exampleInfo (lit "PWS-605P") [lit "OK", lit "Over Temperature Fault"]).Status ↔
        (s.val = 0 ∨ s.val &&& 0x01 ≠ 0 ∨ (s.val &&& 0x02 ≠ 0 ∧ s.val &&& 0x40 = 0))) ∧
      (exampleInfo (lit "PWS-605P")
        [lit "OK", lit "Over Temperature Fault"]).Status.count (lit "OK") ≤ 1 :=
  ⟨by decide!, GetPMBusInfo_status_standard _ _ _ (by decide!) (by decide!) (by decide)⟩

/-- C9: at an address at or above `0xB0`, a run of `GetPMBusInfo` that returns
without error has read the status byte `s` and gone on to the next read
(`0x88`); its status list is empty when the model is not non-standard and is
the non-standard decoding of `s` when the model is non-standard. Status
decoding raises no error: an error that `GetPMBusInfo` returns is always the
error of the last raw read it issued, and in every run a status read answered
with a status byte is followed at once by the read of sub-address `0x88`. -/
theorem GetPMBusInfo_status_high_address (t : Transport) (addr : Byte)
    (ha : 0xB0 ≤ addr.val) :
    (∀ info, (GetPMBusInfo t addr []).2 = some (info, none) →
      ∃ pre m s rest,
        (GetPMBusInfo t addr []).1 = pre ++ rawRead addr 1 0x78 :: rawRead addr 2 0x88 :: rest ∧
        t pre (rawRead addr 1 0x78) = .ok m ∧ m.Data[0]? = some s ∧
        (checkNoneStandardSMCPowerSupplies info.ModuleNumber = false → info.Status = []) ∧
        (checkNoneStandardSMCPowerSupplies info.ModuleNumber = true →
          info.Status = labelsOf nonStandardStatusBits s)) ∧
    (∀ info e, (GetPMBusInfo t addr []).2 = some (info, some e) →
      ∃ init r, (GetPMBusInfo t addr []).1 = init ++ [r] ∧ t init r = .error e) ∧
    (∀ pre m s, (pre ++ [rawRead addr 1 0x78]) <+: (GetPMBusInfo t addr []).1 →
      t pre (rawRead addr 1 0x78) = .ok m → m.Data[0]? = some s →
      (pre ++ [rawRead addr 1 0x78, rawRead addr 2 0x88]) <+: (GetPMBusInfo t addr []).1) := by
  refine ⟨?_, ?_, GetPMBusInfo_statusThenNext t addr⟩
  · intro info h
    have hrun : GetPMBusInfo t addr [] = ((GetPMBusInfo t addr []).1, some (info, none)) := by
      rw [← h]
    obtain ⟨pre, m, s, rest, hlog, hm', hs, hst⟩ := GetPMBusInfo_status_read hrun
    refine ⟨pre, m, s, rest, hlog, hm', hs, ?_, ?_⟩
    · intro hm
      rw [hst, decodeStatus_high _ _ _ hm ha]
    · intro hm
      rw [hst, decodeStatus_nonstandard _ _ _ hm]
  · intro info e h
    obtain ⟨new, hlog, -, -, herr⟩ := GetPMBusInfo_failFast t addr []
    obtain ⟨init, r, hnew, hr⟩ := herr info e h
    refine ⟨init, r, ?_, by simpa using hr⟩
    rw [hlog, hnew, List.nil_append]

/-- Witness of C9: model "PWS-605P" at address `0xB8`, status byte `0xFF`. -/
theorem GetPMBusInfo_status_high_address_witness :
    (0xB0 : Nat) ≤ (0xB8 : Byte).val ∧
    (GetPMBusInfo (exampleTransport (lit "PWS-605P") 0xFF) 0xB8 []).2 =
      some (exampleInfo (lit "PWS-605P") [], none) ∧
    checkNoneStandardSMCPowerSupplies (exampleInfo (lit "PWS-605P") []).ModuleNumber = false ∧
    ∃ pre m s rest,
      (GetPMBusInfo (exampleTransport (lit "PWS-605P") 0xFF) 0xB8 []).1 =
        pre ++ rawRead 0xB8 1 0x78 :: rawRead 0xB8 2 0x88 :: rest ∧
      exampleTransport (lit "PWS-605P") 0xFF pre (rawRead 0xB8 1 0x78) = .ok m ∧
      m.Data[0]? = some s ∧
      (checkNoneStandardSMCPowerSupplies (exampleInfo (lit "PWS-605P") []).ModuleNumber = false →
        (exampleInfo (lit "PWS-605P") []).Status = []) ∧
      (checkNoneStandardSMCPowerSupplies (exampleInfo (lit "PWS-605P") []).ModuleNumber = true →
        (exampleInfo (lit "PWS-605P") []).Status = labelsOf nonStandardStatusBits s) :=
  ⟨by decide, by decide!, by decide!,
    (GetPMBusInfo_status_high_address (exampleTransport (lit "PWS-605P") 0xFF) 0xB8
      (by decide)).1 _ (by decide!)⟩

/-- C10: when a raw read issued by `GetPMBusInfo` fails (the read at position
`i` of the log, answered with the error `e`), `GetPMBusInfo` returns exactly
`e`, that read is the last one issued, it is the only read that failed (so the
first), and no read was issued twice. -/
theorem GetPMBusInfo_first_error (t : Transport) (addr : Byte) (i : Nat)
    (r : MasterRequest) (e : Error)
    (hr : (GetPMBusInfo t addr []).1[i]? = some r)
    (he : t ((GetPMBusInfo t addr []).1.take i) r = .error e) :
    (∃ info, (GetPMBusInfo t addr []).2 = some (info, some e)) ∧
    (GetPMBusInfo t addr []).1.length = i + 1 ∧
    (∀ j r' e', (GetPMBusInfo t addr []).1[j]? = some r' →
      t ((GetPMBusInfo t addr []).1.take j) r' = .error e' → j = i) ∧
    (GetPMBusInfo t addr []).1.Nodup := by
  obtain ⟨new, hlog, hsub, hfail, -⟩ := GetPMBusInfo_failFast t addr []
  rw [List.nil_append] at hlog
  rw [hlog] at hr he ⊢
  have hi := hfail i r e hr (by simpa using he)
  refine ⟨hi.2, hi.1, ?_, hsub.nodup (schedule_nodup addr)⟩
  intro j r' e' hr' he'
  have hj := hfail j r' e' hr' (by simpa using he')
  omega

/-- Witness of C10: the read of sub-address `0x8B` fails with error 5; it is
the read at position 17. -/
theorem GetPMBusInfo_first_error_witness :
    (∃ info, (GetPMBusInfo (failingTransport (lit "PWS-721P") 0x01 0x8B 5) 0x58 []).2 =
      some (info, some (Error.transport 5))) ∧
    (GetPMBusInfo (failingTransport (lit "PWS-721P") 0x01 0x8B 5) 0x58 []).1.length = 17 + 1 ∧
    (∀ j r' e',
      (GetPMBusInfo (failingTransport (lit "PWS-721P") 0x01 0x8B 5) 0x58 []).1[j]? = some r' →
      failingTransport (lit "PWS-721P") 0x01 0x8B 5
        ((GetPMBusInfo (failingTransport (lit "PWS-721P") 0x01 0x8B 5) 0x58 []).1.take j) r' =
          .error e' → j = 17) ∧
    (GetPMBusInfo (failingTransport (lit "PWS-721P") 0x01 0x8B 5) 0x58 []).1.Nodup :=
  GetPMBusInfo_first_error (failingTransport (lit "PWS-721P") 0x01 0x8B 5) 0x58 17
    (rawRead 0x58 2 0x8B) (Error.transport 5) (by decide!) (by simp [failingTransport, rawRead])

/-! ## Theorems: boot device -/

/-- C13: when the initial set-in-progress write fails, `SetBootDevice` still
issues the info-acknowledge write; if that fails its error is returned and
nothing else is written; if it succeeds the boot-flags write is issued and its
result is returned; no other write is issued (no commit-write, no
set-complete), and the error of the initial write is not returned. -/
theorem SetBootDevice_progress_unsupported (t : BootTransport) (p : BootParams) (dev : Byte)
    (e0 : Error)
    (h1 : t [] (bootWrite p.BootParamSetInProgress [0x01]) = some e0) :
    SetBootDevice t p dev [] =
      match t [bootWrite p.BootParamSetInProgress [0x01]]
          (bootWrite p.BootParamInfoAck [0x01, 0x01]) with
      | some e =>
        ([bootWrite p.BootParamSetInProgress [0x01], bootWrite p.BootParamInfoAck [0x01, 0x01]],
          some e)
      | none =>
        ([bootWrite p.BootParamSetInProgress [0x01], bootWrite p.BootParamInfoAck [0x01, 0x01],
            bootWrite p.BootParamBootFlags [0x80, dev, 0x00, 0x00, 0x00]],
          t [bootWrite p.BootParamSetInProgress [0x01],
              bootWrite p.BootParamInfoAck [0x01, 0x01]]
            (bootWrite p.BootParamBootFlags [0x80, dev, 0x00, 0x00, 0x00])) := by
  simp only [bootWrite] at h1 ⊢
  simp only [SetBootDevice, setBootParam, List.nil_append, h1]
  cases h2 : t [{ Param := p.BootParamSetInProgress, Data := [0x01] }]
      { Param := p.BootParamInfoAck, Data := [0x01, 0x01] } with
  | some e => simp
  | none => simp


/-- Witness of C13: the set-in-progress write `(0, [0x01])` is the only write
that fails; boot device `0x08`. -/
theorem SetBootDevice_progress_unsupported_witness :
    SetBootDevice (exampleBootTransport [bootWrite 0 [0x01]]) exampleBootParams 0x08 [] =
      ([bootWrite 0 [0x01], bootWrite 4 [0x01, 0x01], bootWrite 5 [0x80, 0x08, 0x00, 0x00, 0x00]],
        none) :=
  (SetBootDevice_progress_unsupported (exampleBootTransport [bootWrite 0 [0x01]])
    exampleBootParams 0x08 (Error.transport 1) (by decide)).trans (by decide)

/-- C14: when the info-acknowledge write fails with `e`, `SetBootDevice` returns
`e`; the writes issued are the initial set-in-progress write, the
info-acknowledge write and, exactly when the initial write succeeded, one
set-complete write `(BootParamSetInProgress, [0x00])`, whose outcome is not
looked at; no boot-flags write and no commit-write is issued. -/
theorem SetBootDevice_info_ack_fails (t : BootTransport) (p : BootParams) (dev : Byte)
    (e : Error)
    (h2 : t [bootWrite p.BootParamSetInProgress [0x01]]
      (bootWrite p.BootParamInfoAck [0x01, 0x01]) = some e) :
    SetBootDevice t p dev [] =
      ([bootWrite p.BootParamSetInProgress [0x01], bootWrite p.BootParamInfoAck [0x01, 0x01]] ++
        (if t [] (bootWrite p.BootParamSetInProgress [0x01]) = none
          then [bootWrite p.BootParamSetInProgress [0x00]] else []),
        some e) := by
  simp only [bootWrite] at h2 ⊢
  simp only [SetBootDevice, setBootParam, List.nil_append, List.singleton_append, h2]
  by_cases h1 : t [] { Param := p.BootParamSetInProgress, Data := [0x01] } = none
  · simp [h1]
  · have hs : (t [] { Param := p.BootParamSetInProgress, Data := [0x01] }).isSome = true :=
      Option.ne_none_iff_isSome.mp h1
    simp [h1, hs]

/-- Witness of C14: the info-acknowledge write `(4, [0x01, 0x01])` is the only
write that fails. -/
theorem SetBootDevice_info_ack_fails_witness :
    SetBootDevice (exampleBootTransport [bootWrite 4 [0x01, 0x01]]) exampleBootParams 0x08 [] =
      ([bootWrite 0 [0x01], bootWrite 4 [0x01, 0x01], bootWrite 0 [0x00]],
        some (Error.transport 1)) :=
  (SetBootDevice_info_ack_fails (exampleBootTransport [bootWrite 4 [0x01, 0x01]])
    exampleBootParams 0x08 (Error.transport 1) (by decide)).trans (by decide)

/-- C15: when the initial set-in-progress write and the info-acknowledge write
succeed, `SetBootDevice` issues the boot-flags write, then the commit-write
`(BootParamSetInProgress, [0x02])` exactly when the boot-flags write succeeded,
then one set-complete write `(BootParamSetInProgress, [0x00])` as its last
write; it returns the result of the boot-flags write, whatever the commit-write
and the set-complete write return. -/
theorem SetBootDevice_releases_progress (t : BootTransport) (p : BootParams) (dev : Byte)
    (h1 : t [] (bootWrite p.BootParamSetInProgress [0x01]) = none)
    (h2 : t [bootWrite p.BootParamSetInProgress [0x01]]
      (bootWrite p.BootParamInfoAck [0x01, 0x01]) = none) :
    SetBootDevice t p dev [] =
      ([bootWrite p.BootParamSetInProgress [0x01], bootWrite p.BootParamInfoAck [0x01, 0x01],
          bootWrite p.BootParamBootFlags [0x80, dev, 0x00, 0x00, 0x00]] ++
        (if t [bootWrite p.BootParamSetInProgress [0x01],
              bootWrite p.BootParamInfoAck [0x01, 0x01]]
            (bootWrite p.BootParamBootFlags [0x80, dev, 0x00, 0x00, 0x00]) = none
          then [bootWrite p.BootParamSetInProgress [0x02]] else []) ++
        [bootWrite p.BootParamSetInProgress [0x00]],
        t [bootWrite p.BootParamSetInProgress [0x01], bootWrite p.BootParamInfoAck [0x01, 0x01]]
          (bootWrite p.BootParamBootFlags [0x80, dev, 0x00, 0x00, 0x00])) := by
  simp only [bootWrite] at h1 h2 ⊢
  simp only [SetBootDevice, setBootParam, List.nil_append, List.singleton_append, h1, h2]
  cases h3 : t [{ Param := p.BootParamSetInProgress, Data := [0x01] },
      { Param := p.BootParamInfoAck, Data := [0x01, 0x01] }]
      { Param := p.BootParamBootFlags, Data := [0x80, dev, 0x00, 0x00, 0x00] } with
  | some e => simp
  | none => simp

/-- Witness of C15: the boot-flags write, the commit-write and the set-complete
write all fail; the boot-flags error is returned after one set-complete
write. -/
theorem SetBootDevice_releases_progress_witness :
    SetBootDevice
        (exampleBootTransport [bootWrite 5 [0x80, 0x08, 0x00, 0x00, 0x00], bootWrite 0 [0x02],
          bootWrite 0 [0x00]])
        exampleBootParams 0x08 [] =
      ([bootWrite 0 [0x01], bootWrite 4 [0x01, 0x01], bootWrite 5 [0x80, 0x08, 0x00, 0x00, 0x00],
          bootWrite 0 [0x00]],
        some (Error.transport 1)) :=
  (SetBootDevice_releases_progress
    (exampleBootTransport [bootWrite 5 [0x80, 0x08, 0x00, 0x00, 0x00], bootWrite 0 [0x02],
      bootWrite 0 [0x00]])
    exampleBootParams 0x08 (by decide) (by decide)).trans (by decide)

/-- C16: when the writes succeed (the initial set-in-progress write, the
info-acknowledge write and the boot-flags write; the results of the last two
writes are not looked at, so in particular when all five succeed),
`SetBootDevice` issues exactly five writes, in this order, and returns nil:
`(BootParamSetInProgress, [0x01])`, `(BootParamInfoAck, [0x01, 0x01])`,
`(BootParamBootFlags, [0x80, dev, 0, 0, 0])`, `(BootParamSetInProgress, [0x02])`,
`(BootParamSetInProgress, [0x00])`. -/
theorem SetBootDevice_all_succeed (t : BootTransport) (p : BootParams) (dev : Byte)
    (h1 : t [] (bootWrite p.BootParamSetInProgress [0x01]) = none)
    (h2 : t [bootWrite p.BootParamSetInProgress [0x01]]
      (bootWrite p.BootParamInfoAck [0x01, 0x01]) = none)
    (h3 : t [bootWrite p.BootParamSetInProgress [0x01], bootWrite p.BootParamInfoAck [0x01, 0x01]]
      (bootWrite p.BootParamBootFlags [0x80, dev, 0x00, 0x00, 0x00]) = none) :
    SetBootDevice t p dev [] =
      ([bootWrite p.BootParamSetInProgress [0x01], bootWrite p.BootParamInfoAck [0x01, 0x01],
          bootWrite p.BootParamBootFlags [0x80, dev, 0x00, 0x00, 0x00],
          bootWrite p.BootParamSetInProgress [0x02], bootWrite p.BootParamSetInProgress [0x00]],
        none) := by
  simp only [bootWrite] at h1 h2 h3 ⊢
  simp [SetBootDevice, setBootParam, h1, h2, h3]

/-- Witness of C16: no write fails; boot device `0x08`. -/
theorem SetBootDevice_all_succeed_witness :
    SetBootDevice (exampleBootTransport []) exampleBootParams 0x08 [] =
      ([bootWrite 0 [0x01], bootWrite 4 [0x01, 0x01], bootWrite 5 [0x80, 0x08, 0x00, 0x00, 0x00],
          bootWrite 0 [0x02], bootWrite 0 [0x00]],
        none) :=
  SetBootDevice_all_succeed (exampleBootTransport []) exampleBootParams 0x08 rfl rfl rfl

/-! ## Theorems: further properties of the codec, the decoder and the classifier -/

theorem and_high_bit (x : Nat) (hx : x < 2 ^ 16) : (x &&& 0x8000 > 0) ↔ 2 ^ 15 ≤ x := by
  have h : (0x8000 : Nat) = 2 ^ 15 := by decide
  rw [h, Nat.and_two_pow, Nat.testBit_to_div_mod]
  by_cases hc : x / 2 ^ 15 % 2 = 1
  · simp only [hc, decide_True, Bool.toNat_true]
    constructor
    · intro _; omega
    · intro _; decide
  · simp only [hc, decide_False, Bool.toNat_false]
    constructor
    · intro h0; simp at h0
    · intro _; omega

theorem and_exponent_bits (x : Nat) (hx : x < 2 ^ 16) : (x &&& 0xF800) >>> 11 = x / 2 ^ 11 := by
  rw [← Nat.shiftRight_eq_div_pow]
  apply Nat.eq_of_testBit_eq
  intro j
  simp only [Nat.testBit_shiftRight, Nat.testBit_and]
  by_cases hj : j < 5
  · have : (0xF800 : Nat).testBit (11 + j) = true := by
      interval_cases j <;> decide
    rw [this, Bool.and_true]
  · have hle : 2 ^ 16 ≤ 2 ^ (11 + j) := Nat.pow_le_pow_right (by decide) (by omega)
    rw [Nat.testBit_lt_two_pow (Nat.lt_of_lt_of_le hx hle), Bool.false_and]

theorem int16_exponent : ∀ N : Fin 32, 16 ≤ N.val → int16 (N.val ^^^ 0xFFE0) = (N.val : Int) - 32 := by
  decide!

theorem word16_eq (d1 d0 : Byte) : word 16 d1 d0 = d1.val * 256 + d0.val := by
  have h1 := d1.isLt
  have h0 := d0.isLt
  simp only [word, Nat.shiftLeft_eq]
  omega

/-- C17: for the bytes `d0` (low) and `d1` (high) of the word `v = d1 * 256 + d0`
with mantissa `Y = v mod 2 ^ 11` at most 1023 and `N = v / 2 ^ 11`,
`linearDataFormat` returns `Y * 2 ^ e` with `e = N` when bit 15 is clear
(`v < 2 ^ 15`) and `e = N - 32` when it is set; `int16 (N ^ 0xFFE0)` is `N - 32`
for every `N` in `16 .. 31`; and the bytes `[0x00, 0x00]` decode to `0`. -/
theorem linearDataFormat_nonneg_mantissa (d0 d1 : Byte)
    (hY : (d1.val * 256 + d0.val) % 2 ^ 11 ≤ 1023) :
    linearDataFormat [d0, d1] =
      some ((((d1.val * 256 + d0.val) % 2 ^ 11 : Nat) : ℚ) *
        (2 : ℚ) ^ (if d1.val * 256 + d0.val < 2 ^ 15
          then (((d1.val * 256 + d0.val) / 2 ^ 11 : Nat) : Int)
          else (((d1.val * 256 + d0.val) / 2 ^ 11 : Nat) : Int) - 32)) ∧
    (∀ N : Nat, 16 ≤ N → N ≤ 31 → int16 (N ^^^ 0xFFE0) = (N : Int) - 32) ∧
    linearDataFormat [0x00, 0x00] = some 0 := by
  have h1 := d1.isLt
  have h0 := d0.isLt
  have hx : d1.val * 256 + d0.val < 2 ^ 16 := by omega
  refine ⟨?_, ?_, by decide!⟩
  · have hm : (0x7FF : Nat) = 2 ^ 11 - 1 := by decide
    have hYe : (d1.val * 256 + d0.val) &&& 0x7FF = (d1.val * 256 + d0.val) % 2 ^ 11 := by
      rw [hm, Nat.and_pow_two_sub_one_eq_mod]
    have hunfold : linearDataFormat [d0, d1] = some
        (((if (word 16 d1 d0 &&& 0x7FF) > 1023
            then ((word 16 d1 d0 &&& 0x7FF) + 2 ^ 16 - 2048) % 2 ^ 16
            else (word 16 d1 d0 &&& 0x7FF) : Nat) : ℚ) *
          (if word 16 d1 d0 &&& 0x8000 > 0
            then pow2 (int16 (((word 16 d1 d0 &&& 0xF800) >>> 11) ^^^ 0xFFE0))
            else pow2 (((word 16 d1 d0 &&& 0xF800) >>> 11 : Nat) : Int))) := rfl
    rw [hunfold, word16_eq, hYe, and_exponent_bits _ hx, if_neg (by omega)]
    by_cases hs : d1.val * 256 + d0.val < 2 ^ 15
    · have hns : ¬ ((d1.val * 256 + d0.val) &&& 0x8000 > 0) := by
        rw [and_high_bit _ hx]; omega
      rw [if_neg hns, if_pos hs, pow2]
    · have hps : (d1.val * 256 + d0.val) &&& 0x8000 > 0 := by
        rw [and_high_bit _ hx]; omega
      have hN : (d1.val * 256 + d0.val) / 2 ^ 11 < 32 := by omega
      have h16 : 16 ≤ (d1.val * 256 + d0.val) / 2 ^ 11 := by omega
      have := int16_exponent ⟨(d1.val * 256 + d0.val) / 2 ^ 11, hN⟩ h16
      simp only at this
      rw [if_pos hps, if_neg hs, pow2, this]
  · intro N h16 h31
    exact int16_exponent ⟨N, by omega⟩ h16

/-- Witness of C17: the word `0xF801` (mantissa 1, exponent bits `11111`, that
is `-1`) decodes to `1/2`. -/
theorem linearDataFormat_nonneg_mantissa_witness :
    linearDataFormat [0x01, 0xF8] = some (1 / 2) :=
  ((linearDataFormat_nonneg_mantissa 0x01 0xF8 (by decide)).1).trans (by decide!)

theorem marshal_response_frame (a b : Byte) (data : List Byte) :
    (do
      let buf := makeBytes (2 + data.length)
      let buf ← setByte buf 0 a
      let buf ← setByte buf 1 b
      let buf ← copyFrom buf 2 data
      pure (buf, (none : Option Error))) = some ([a, b] ++ data, none) := by
  have h : makeBytes (2 + data.length) = 0 :: 0 :: makeBytes data.length := by
    simp [makeBytes, Nat.add_comm 2, List.replicate_succ]
  simp only [h, setByte]
  simp [copyFrom, makeBytes]
  omega

/-- C19: `MasterResponse.MarshalBinary` yields `[CompletionCode, len(Data) mod
256]` followed by `Data`; `MasterResponse.UnmarshalBinary` of that frame, on any
receiver, succeeds with the same `CompletionCode` and with `Data` equal to the
length byte followed by the original `Data`: one byte longer than what was
encoded, so the decoded response is never the encoded one. -/
theorem MasterResponse_marshal_unmarshal (r r0 : MasterResponse) :
    r.MarshalBinary =
      some ([r.CompletionCode, Fin.ofNat (r.Data.length % 256)] ++ r.Data, none) ∧
    r0.UnmarshalBinary ([r.CompletionCode, Fin.ofNat (r.Data.length % 256)] ++ r.Data) =
      ({ CompletionCode := r.CompletionCode,
         Data := Fin.ofNat (r.Data.length % 256) :: r.Data }, none) ∧
    (r0.UnmarshalBinary
      ([r.CompletionCode, Fin.ofNat (r.Data.length % 256)] ++ r.Data)).1.Data.length =
        r.Data.length + 1 ∧
    (r0.UnmarshalBinary
      ([r.CompletionCode, Fin.ofNat (r.Data.length % 256)] ++ r.Data)).1 ≠ r := by
  have hdec : r0.UnmarshalBinary
      ([r.CompletionCode, Fin.ofNat (r.Data.length % 256)] ++ r.Data) =
      ({ CompletionCode := r.CompletionCode,
         Data := Fin.ofNat (r.Data.length % 256) :: r.Data }, none) := by
    simp [MasterResponse.UnmarshalBinary]
  refine ⟨marshal_response_frame _ _ _, hdec, by rw [hdec]; simp, ?_⟩
  rw [hdec]
  intro h
  have hlen := congrArg (fun x => x.Data.length) h
  simp at hlen

theorem someEntryIsSubstring_iff (s : GoString) :
    someEntryIsSubstring s = true ↔ ∃ e ∈ noneStandardSMCPowerSupplies, e <:+: s := by
  simp only [someEntryIsSubstring, List.any_eq_true, stringsContains_iff]

/-- C20: `checkNoneStandardSMCPowerSupplies s` equals the plain test "some entry
of the ten-entry table is a substring of `s`" for every `s`, the exception
"PWS-920P-1R2" containing the table entry "PWS-920P-1R"; and a string that
contains a non-standard string is non-standard. -/
theorem checkNoneStandardSMCPowerSupplies_exception_redundant :
    (∀ s : GoString, checkNoneStandardSMCPowerSupplies s = someEntryIsSubstring s) ∧
    lit "PWS-920P-1R" ∈ noneStandardSMCPowerSupplies ∧
    lit "PWS-920P-1R" <:+: lit "PWS-920P-1R2" ∧
    (∀ s s' : GoString, checkNoneStandardSMCPowerSupplies s = true → s <:+: s' →
      checkNoneStandardSMCPowerSupplies s' = true) := by
  have hex : lit "PWS-920P-1R" <:+: lit "PWS-920P-1R2" :=
    (stringsContains_iff _ _).1 (by decide)
  have hmem : lit "PWS-920P-1R" ∈ noneStandardSMCPowerSupplies := by decide
  have hiff : ∀ s : GoString, checkNoneStandardSMCPowerSupplies s = true ↔
      ∃ e ∈ noneStandardSMCPowerSupplies, e <:+: s := by
    intro s
    by_cases h : checkLoop s noneStandardSMCPowerSupplies = true
    · simp [checkNoneStandardSMCPowerSupplies, h, (checkLoop_iff s _).1 h]
    · have h' : ¬ ∃ e ∈ noneStandardSMCPowerSupplies, e <:+: s :=
        fun he => h ((checkLoop_iff s _).2 he)
      have hne : s ≠ lit "PWS-920P-1R2" := by
        intro hs
        exact h' ⟨_, hmem, hs ▸ hex⟩
      simp [checkNoneStandardSMCPowerSupplies, h, h', hne]
  refine ⟨?_, hmem, hex, ?_⟩
  · intro s
    rw [Bool.eq_iff_iff, hiff, someEntryIsSubstring_iff]
  · intro s s' hs hsub
    obtain ⟨e, he, hes⟩ := (hiff s).1 hs
    exact (hiff s').2 ⟨e, he, hes.trans hsub⟩


/-! ## Theorems: the block readers -/

theorem blockReads_eq (addr : Byte) (base : Nat) (todo idx : Nat) :
    blockReads addr base todo idx = (List.range' idx todo).map (blockRead addr base) := by
  induction todo generalizing idx with
  | zero => rfl
  | succ n ih => simp only [blockReads, List.range'_succ, List.map_cons, ih, blockRead]

theorem readBlock_serves (t : Transport) (addr : Byte) (base : Nat) (block : Nat → Byte)
    (todo idx : Nat) (acc : List Byte) (log : List MasterRequest)
    (hs : ∀ pre i, idx ≤ i → i < idx + todo →
      ∃ m rest, t pre (blockRead addr base i) = .ok m ∧ m.Data = block i :: rest) :
    readBlock t addr base todo idx acc log =
      (log ++ (List.range' idx
          (min todo ((((List.range' idx todo).map block).takeWhile inBlockRange).length + 1))).map
          (blockRead addr base),
        some (acc ++ ((List.range' idx todo).map block).takeWhile inBlockRange, none)) := by
  induction todo generalizing idx acc log with
  | zero => simp [readBlock]
  | succ n ih =>
    obtain ⟨m, rest, hm, hd⟩ := hs log idx (Nat.le_refl _) (by omega)
    simp only [blockRead] at hm
    rw [readBlock_succ, hm]
    have hd0 : m.Data[0]? = some (block idx) := by rw [hd]; simp
    simp only [hd0, List.range'_succ, List.map_cons]
    by_cases hr : inBlockRange (block idx) = true
    · have hcond : ¬ ((block idx).val < 0x1F ∨ (block idx).val > 0x7E) := by
        simp only [inBlockRange, decide_eq_true_eq] at hr
        omega
      rw [if_neg hcond, List.takeWhile_cons_of_pos hr]
      rw [ih (idx + 1) (acc ++ [block idx]) _ (fun pre i h1 h2 => hs pre i (by omega) (by omega))]
      simp only [List.length_cons, Nat.add_min_add_right, List.range'_succ, List.map_cons,
        List.append_assoc, List.singleton_append, blockRead]
    · have hcond : (block idx).val < 0x1F ∨ (block idx).val > 0x7E := by
        simp only [inBlockRange, decide_eq_true_eq] at hr
        omega
      rw [if_pos hcond, List.takeWhile_cons_of_neg hr]
      simp [List.range'_succ, blockRead]

theorem longestPrefixReader_readBlock (base n : Nat) :
    LongestPrefixReader (fun t addr => readBlock t addr base n 0 []) base n := by
  intro t addr block log hs
  have hmain := readBlock_serves t addr base block n 0 [] log
    (fun pre i _ h2 => hs pre i (by omega))
  simp only [List.nil_append, ← List.range_eq_range'] at hmain
  refine ⟨hmain, ?_, ?_⟩
  · intro h0 hn
    show readBlock t addr base n 0 [] log = _
    rw [hmain]
    have htw : ((List.range n).map block).takeWhile inBlockRange = [] := by
      cases n with
      | zero => omega
      | succ k =>
        rw [List.range_succ_eq_map, List.map_cons, List.takeWhile_cons_of_neg (by simpa using h0)]
    rw [htw]
    have hmin : min n ([] : List Byte).length.succ = 1 := by
      simp only [List.length_nil]; omega
    simp only [List.length_nil, Nat.zero_add] at hmin ⊢
    have : min n 1 = 1 := by omega
    rw [this]
    rfl
  · intro hall
    show readBlock t addr base n 0 [] log = _
    rw [hmain]
    have htw : ((List.range n).map block).takeWhile inBlockRange = (List.range n).map block := by
      rw [List.takeWhile_eq_self_iff]
      intro b hb
      obtain ⟨i, hi, rfl⟩ := List.mem_map.1 hb
      exact hall i (List.mem_range.1 hi)
    rw [htw]
    simp

/-- C18: each block reader (`GetPMBusSerial`: 15 bytes from `0xD0`;
`GetPMBusModelNumber`: 13 bytes from `0xE0`; `GetPMBusRevisionNumber`: 3 bytes
from `0xF3`), against a transport that serves the block, returns the longest
prefix of the block whose bytes all lie in `0x1F .. 0x7E`, and reads exactly the
bytes returned and the byte that ended the scan (nothing after it); a first byte
out of range gives the empty string after one read, and a block with no byte
out of range is returned whole after all its reads. -/
theorem blockReaders_longest_in_range :
    LongestPrefixReader GetPMBusSerial 0xD0 15 ∧
    LongestPrefixReader GetPMBusModelNumber 0xE0 13 ∧
    LongestPrefixReader GetPMBusRevisionNumber 0xF3 3 :=
  ⟨longestPrefixReader_readBlock 0xD0 15, longestPrefixReader_readBlock 0xE0 13,
    longestPrefixReader_readBlock 0xF3 3⟩

theorem blockTransport_serves (addr : Byte) :
    ServesBlock (blockTransport exampleBlock) addr 0xD0 15 exampleBlock := by
  intro pre i hi
  interval_cases i <;> exact ⟨_, [], rfl, rfl⟩

/-- Witness of C18: the serial-number block `'A', 'B', 0x00, 'C', ...` gives
"AB" after three reads. -/
theorem blockReaders_longest_in_range_witness :
    GetPMBusSerial (blockTransport exampleBlock) 0x58 [] =
      ([rawRead 0x58 1 0xD0, rawRead 0x58 1 0xD1, rawRead 0x58 1 0xD2],
        some ([0x41, 0x42], none)) :=
  ((blockReaders_longest_in_range.1 (blockTransport exampleBlock) 0x58 exampleBlock []
    (blockTransport_serves 0x58)).1).trans (by decide)

/-! ## Theorems: the order of the reads -/

theorem readBlock_ok_log (t : Transport) (addr : Byte) (base : Nat) (todo idx : Nat)
    (acc : List Byte) (log log' : List MasterRequest) (s : GoString)
    (h : readBlock t addr base todo idx acc log = (log', some (s, none))) :
    ∃ k, k ≤ todo ∧ (0 < todo → 0 < k) ∧
      log' = log ++ (List.range' idx k).map (blockRead addr base) := by
  induction todo generalizing idx acc log with
  | zero =>
    simp only [readBlock, Prod.mk.injEq] at h
    exact ⟨0, Nat.le_refl _, fun h0 => h0, by simp [h.1]⟩
  | succ n ih =>
    rw [readBlock_succ] at h
    cases ht : t log (rawRead addr 1 (uint8 (base + idx))) with
    | error e => rw [ht] at h; simp at h
    | ok m =>
      rw [ht] at h
      cases hd : m.Data[0]? with
      | none => simp [hd] at h
      | some d0 =>
        simp only [hd] at h
        by_cases hc : d0.val < 0x1F ∨ d0.val > 0x7E
        · rw [if_pos hc] at h
          simp only [Prod.mk.injEq] at h
          exact ⟨1, by omega, fun _ => Nat.one_pos, by simp [← h.1, blockRead]⟩
        · rw [if_neg hc] at h
          obtain ⟨k, hk, -, hlog⟩ := ih (idx + 1) (acc ++ [d0]) _ h
          exact ⟨k + 1, by omega, fun _ => Nat.succ_pos _,
            by simp [hlog, List.range'_succ, blockRead]⟩

theorem GetPMBusInfo_ok_reads {t : Transport} {addr : Byte} {log : List MasterRequest}
    {info : PMBusInfo} (hrun : GetPMBusInfo t addr [] = (log, some (info, none))) :
    ∃ k1 k2 k3, (1 ≤ k1 ∧ k1 ≤ 15) ∧ (1 ≤ k2 ∧ k2 ≤ 13) ∧ (1 ≤ k3 ∧ k3 ≤ 3) ∧
      log =
        (List.range k1).map (blockRead addr 0xD0) ++
        ((List.range k2).map (blockRead addr 0xE0) ++
        ((List.range k3).map (blockRead addr 0xF3) ++
        [rawRead addr 1 0x98, rawRead addr 2 0xFC, rawRead addr 1 0x20, rawRead addr 1 0x78,
          rawRead addr 2 0x88, rawRead addr 2 0x89, rawRead addr 2 0x8B, rawRead addr 2 0x8C,
          rawRead addr 2 0x8D, rawRead addr 2 0x8E, rawRead addr 2 0x90, rawRead addr 2 0x91,
          rawRead addr 2 0x97, rawRead addr 2 0x96])) ∧
      (∀ r ∈ log, r.Bus = 0x7 ∧ r.Addr = addr) ∧
      ∃ pre m20 mode m8B,
        t pre (rawRead addr 1 0x20) = .ok m20 ∧ m20.Data[0]? = some mode ∧
        t (pre ++ [rawRead addr 1 0x20, rawRead addr 1 0x78, rawRead addr 2 0x88,
            rawRead addr 2 0x89]) (rawRead addr 2 0x8B) = .ok m8B ∧
        (pre ++ [rawRead addr 1 0x20, rawRead addr 1 0x78, rawRead addr 2 0x88,
            rawRead addr 2 0x89, rawRead addr 2 0x8B]) <+: log ∧
        vOutOfData mode m8B.Data = some info.OutputVoltage := by
  unfold GetPMBusInfo at hrun
  obtain ⟨log1, v1, h1, hrun⟩ := readThen_ok hrun
  obtain ⟨log2, v2, h2, hrun⟩ := readThen_ok hrun
  obtain ⟨log3, v3, h3, hrun⟩ := readThen_ok hrun
  obtain ⟨log4, v4, h4, hrun⟩ := readThen_ok hrun
  obtain ⟨log5, v5, h5, hrun⟩ := readThen_ok hrun
  obtain ⟨log6, v6, h6, hrun⟩ := readThen_ok hrun
  obtain ⟨log7, v7, h7, hrun⟩ := readThen_ok hrun
  obtain ⟨log8, v8, h8, hrun⟩ := readThen_ok hrun
  obtain ⟨log9, v9, h9, hrun⟩ := readThen_ok hrun
  obtain ⟨log10, v10, h10, hrun⟩ := readThen_ok hrun
  obtain ⟨log11, v11, h11, hrun⟩ := readThen_ok hrun
  obtain ⟨log12, v12, h12, hrun⟩ := readThen_ok hrun
  obtain ⟨log13, v13, h13, hrun⟩ := readThen_ok hrun
  obtain ⟨log14, v14, h14, hrun⟩ := readThen_ok hrun
  obtain ⟨log15, v15, h15, hrun⟩ := readThen_ok hrun
  obtain ⟨log16, v16, h16, hrun⟩ := readThen_ok hrun
  obtain ⟨log17, v17, h17, hrun⟩ := readThen_ok hrun
  obtain ⟨k1, hk1, hk1', hl1⟩ := readBlock_ok_log t addr 0xD0 15 0 [] [] log1 v1 h1
  obtain ⟨k2, hk2, hk2', hl2⟩ := readBlock_ok_log t addr 0xE0 13 0 [] _ log2 v2 h2
  obtain ⟨k3, hk3, hk3', hl3⟩ := readBlock_ok_log t addr 0xF3 3 0 [] _ log3 v3 h3
  obtain ⟨rfl, -⟩ := readValue_ok h4
  obtain ⟨rfl, -⟩ := readValue_ok h5
  obtain ⟨rfl, m20, hm20, hd20⟩ := readValue_ok h6
  obtain ⟨rfl, -⟩ := readValue_ok h7
  obtain ⟨rfl, -⟩ := readValue_ok h8
  obtain ⟨rfl, -⟩ := readValue_ok h9
  obtain ⟨rfl, m8B, hm8B, hd8B⟩ := readValue_ok h10
  obtain ⟨rfl, -⟩ := readValue_ok h11
  obtain ⟨rfl, -⟩ := readValue_ok h12
  obtain ⟨rfl, -⟩ := readValue_ok h13
  obtain ⟨rfl, -⟩ := readValue_ok h14
  obtain ⟨rfl, -⟩ := readValue_ok h15
  obtain ⟨rfl, -⟩ := readValue_ok h16
  obtain ⟨rfl, -⟩ := readValue_ok h17
  simp only [Prod.mk.injEq, Option.some.injEq, and_true] at hrun
  obtain ⟨hlog, hinfo⟩ := hrun
  subst hlog hinfo
  clear h1 h2 h3 h4 h5 h6 h7 h8 h9 h10 h11 h12 h13 h14 h15 h16 h17
  subst hl3 hl2 hl1
  refine ⟨k1, k2, k3, ⟨hk1' (by decide), hk1⟩, ⟨hk2' (by decide), hk2⟩, ⟨hk3' (by decide), hk3⟩,
    ?_, ?_, ?_⟩
  · simp only [List.nil_append, List.append_assoc, List.singleton_append, List.cons_append,
      ← List.range_eq_range']
  · intro r hr
    simp only [List.nil_append, List.mem_append, List.mem_map, List.mem_singleton] at hr
    rcases hr with (((((((((((((((⟨i, -, rfl⟩ | ⟨i, -, rfl⟩) | ⟨i, -, rfl⟩) | rfl) | rfl) | rfl) |
      rfl) | rfl) | rfl) | rfl) | rfl) | rfl) | rfl) | rfl) | rfl) | rfl) | rfl <;>
      exact ⟨rfl, rfl⟩
  · refine ⟨_, m20, v6, m8B, hm20, hd20, ?_, ?_, hd8B⟩
    · simpa only [List.append_assoc, List.singleton_append, List.cons_append,
        List.nil_append] using hm8B
    · simp only [List.append_assoc, List.singleton_append, List.cons_append, List.nil_append]
      exact ⟨[rawRead addr 2 0x8C, rawRead addr 2 0x8D, rawRead addr 2 0x8E,
        rawRead addr 2 0x90, rawRead addr 2 0x91, rawRead addr 2 0x97, rawRead addr 2 0x96],
        by simp⟩

/-- C12: in a run of `GetPMBusInfo` that returns without error, every read is
on bus `0x07` to the given address, and the reads are, in this order: the
first `k1` reads of the serial block (`0xD0 ..`, `1 ≤ k1 ≤ 15`), the first `k2`
reads of the model block (`0xE0 ..`, `1 ≤ k2 ≤ 13`), the first `k3` reads of the
revision block (`0xF3 ..`, `1 ≤ k3 ≤ 3`), then `0x98`, `0xFC`, `0x20`, `0x78`,
`0x88`, `0x89`, `0x8B`, `0x8C`, `0x8D`, `0x8E`, `0x90`, `0x91`, `0x97`, `0x96`;
so the model reads precede the status and fan reads and `0x20` precedes
`0x8B`; and the output voltage is the decoding of the answer to the `0x8B` read
under the mode byte answered to the `0x20` read. -/
theorem GetPMBusInfo_read_order (t : Transport) (addr : Byte) (info : PMBusInfo)
    (h : (GetPMBusInfo t addr []).2 = some (info, none)) :
    ∃ k1 k2 k3, (1 ≤ k1 ∧ k1 ≤ 15) ∧ (1 ≤ k2 ∧ k2 ≤ 13) ∧ (1 ≤ k3 ∧ k3 ≤ 3) ∧
      (GetPMBusInfo t addr []).1 =
        (List.range k1).map (blockRead addr 0xD0) ++
        ((List.range k2).map (blockRead addr 0xE0) ++
        ((List.range k3).map (blockRead addr 0xF3) ++
        [rawRead addr 1 0x98, rawRead addr 2 0xFC, rawRead addr 1 0x20, rawRead addr 1 0x78,
          rawRead addr 2 0x88, rawRead addr 2 0x89, rawRead addr 2 0x8B, rawRead addr 2 0x8C,
          rawRead addr 2 0x8D, rawRead addr 2 0x8E, rawRead addr 2 0x90, rawRead addr 2 0x91,
          rawRead addr 2 0x97, rawRead addr 2 0x96])) ∧
      (∀ r ∈ (GetPMBusInfo t addr []).1, r.Bus = 0x7 ∧ r.Addr = addr) ∧
      ∃ pre m20 mode m8B,
        t pre (rawRead addr 1 0x20) = .ok m20 ∧ m20.Data[0]? = some mode ∧
        t (pre ++ [rawRead addr 1 0x20, rawRead addr 1 0x78, rawRead addr 2 0x88,
            rawRead addr 2 0x89]) (rawRead addr 2 0x8B) = .ok m8B ∧
        (pre ++ [rawRead addr 1 0x20, rawRead addr 1 0x78, rawRead addr 2 0x88,
            rawRead addr 2 0x89, rawRead addr 2 0x8B]) <+: (GetPMBusInfo t addr []).1 ∧
        vOutOfData mode m8B.Data = some info.OutputVoltage := by
  have hrun : GetPMBusInfo t addr [] = ((GetPMBusInfo t addr []).1, some (info, none)) := by
    rw [← h]
  exact GetPMBusInfo_ok_reads hrun

/-- Witness of C12: model "PWS-721P", status byte `0x01`, address `0x58`. -/
theorem GetPMBusInfo_read_order_witness :
    ∃ k1 k2 k3, (1 ≤ k1 ∧ k1 ≤ 15) ∧ (1 ≤ k2 ∧ k2 ≤ 13) ∧ (1 ≤ k3 ∧ k3 ≤ 3) ∧
      (GetPMBusInfo (exampleTransport (lit "PWS-721P") 0x01) 0x58 []).1 =
        (List.range k1).map (blockRead 0x58 0xD0) ++
        ((List.range k2).map (blockRead 0x58 0xE0) ++
        ((List.range k3).map (blockRead 0x58 0xF3) ++
        [rawRead 0x58 1 0x98, rawRead 0x58 2 0xFC, rawRead 0x58 1 0x20, rawRead 0x58 1 0x78,
          rawRead 0x58 2 0x88, rawRead 0x58 2 0x89, rawRead 0x58 2 0x8B, rawRead 0x58 2 0x8C,
          rawRead 0x58 2 0x8D, rawRead 0x58 2 0x8E, rawRead 0x58 2 0x90, rawRead 0x58 2 0x91,
          rawRead 0x58 2 0x97, rawRead 0x58 2 0x96])) ∧
      (∀ r ∈ (GetPMBusInfo (exampleTransport (lit "PWS-721P") 0x01) 0x58 []).1, r.Bus = 0x7 ∧ r.Addr = 0x58) ∧
      ∃ pre m20 mode m8B,
        (exampleTransport (lit "PWS-721P") 0x01) pre (rawRead 0x58 1 0x20) = .ok m20 ∧ m20.Data[0]? = some mode ∧
        (exampleTransport (lit "PWS-721P") 0x01) (pre ++ [rawRead 0x58 1 0x20, rawRead 0x58 1 0x78, rawRead 0x58 2 0x88,
            rawRead 0x58 2 0x89]) (rawRead 0x58 2 0x8B) = .ok m8B ∧
        (pre ++ [rawRead 0x58 1 0x20, rawRead 0x58 1 0x78, rawRead 0x58 2 0x88,
            rawRead 0x58 2 0x89, rawRead 0x58 2 0x8B]) <+: (GetPMBusInfo (exampleTransport (lit "PWS-721P") 0x01) 0x58 []).1 ∧
        vOutOfData mode m8B.Data = some (exampleInfo (lit "PWS-721P") [lit "OK"]).OutputVoltage :=
  GetPMBusInfo_read_order (exampleTransport (lit "PWS-721P") 0x01) 0x58
    (exampleInfo (lit "PWS-721P") [lit "OK"]) (by decide!)

/-! ## Theorems: the record returned with an error -/

theorem readThen_inv {α : Type} {read : M (α × Option Error)} {set : α → PMBusInfo}
    {next : α → PMBusInfo → M (PMBusInfo × Option Error)} {log log' : List MasterRequest}
    {info : PMBusInfo} {e : Error}
    (h : readThen read set next log = (log', some (info, some e))) :
    (∃ v, read log = (log', some (v, some e)) ∧ info = set v) ∨
    (∃ log1 v, read log = (log1, some (v, none)) ∧
      next v (set v) log1 = (log', some (info, some e))) := by
  rcases hr : read log with ⟨log1, out⟩
  match out, hr with
  | none, hr => simp [readThen, hr] at h
  | some (v, some e'), hr =>
    simp only [readThen, hr, Prod.mk.injEq, Option.some.injEq] at h
    obtain ⟨rfl, rfl, rfl⟩ := h
    exact Or.inl ⟨v, rfl, rfl⟩
  | some (v, none), hr =>
    refine Or.inr ⟨log1, v, rfl, ?_⟩
    simpa [readThen, hr] using h

theorem checked_ok {α : Type} {read : M (α × Option Error)} {p : α → Bool}
    {log log' : List MasterRequest} {v : α} (h : read log = (log', some (v, none)))
    (hp : p v = true) : checked read p log = (log', some (true, none)) := by
  simp only [checked, h, Option.map_some', hp]

theorem checked_err {α : Type} {read : M (α × Option Error)} (p : α → Bool)
    {log log' : List MasterRequest} {v : α} {e : Error}
    (h : read log = (log', some (v, some e))) :
    checked read p log = (log', some (p v, some e)) := by
  simp only [checked, h, Option.map_some']

theorem failFast_extends {t : Transport} {s : List MasterRequest} {α : Type}
    {read : M (α × Option Error)} (hf : FailFast t s read) {log log' : List MasterRequest}
    {out : Option (α × Option Error)} (h : read log = (log', out)) : log <+: log' := by
  obtain ⟨new, hnew, -⟩ := hf log
  rw [h] at hnew
  exact ⟨new, hnew.symm⟩

theorem readValue_extends {α : Type} {t : Transport} {addr rsize cmd : Byte} {zero : α}
    {dec : List Byte → Option α} {log log' : List MasterRequest}
    {out : Option (α × Option Error)}
    (h : readValue t addr rsize cmd zero dec log = (log', out)) : log <+: log' :=
  failFast_extends (failFast_readValue t addr rsize cmd zero dec) h

theorem readBlock_extends {t : Transport} {addr : Byte} {base todo idx : Nat} {acc : List Byte}
    {log log' : List MasterRequest} {out : Option (GoString × Option Error)}
    (h : readBlock t addr base todo idx acc log = (log', out)) : log <+: log' :=
  failFast_extends (failFast_readBlock t addr base todo idx acc) h

theorem readValue_err {α : Type} {t : Transport} {addr rsize cmd : Byte} {zero : α}
    {dec : List Byte → Option α} {log log' : List MasterRequest} {v : α} {e : Error}
    (h : readValue t addr rsize cmd zero dec log = (log', some (v, some e))) : v = zero := by
  rw [readValue_eq] at h
  cases ht : t log (rawRead addr rsize cmd) with
  | error e' =>
    rw [ht] at h
    simp only [Prod.mk.injEq, Option.some.injEq] at h
    exact h.2.1.symm
  | ok m =>
    rw [ht] at h
    cases hd : dec m.Data <;> simp [hd] at h

theorem readBlock_err {t : Transport} {addr : Byte} {base todo idx : Nat} {acc : List Byte}
    {log log' : List MasterRequest} {v : GoString} {e : Error}
    (h : readBlock t addr base todo idx acc log = (log', some (v, some e))) : v = [] := by
  induction todo generalizing idx acc log with
  | zero => simp [readBlock] at h
  | succ n ih =>
    rw [readBlock_succ] at h
    cases ht : t log (rawRead addr 1 (uint8 (base + idx))) with
    | error e' =>
      rw [ht] at h
      simp only [Prod.mk.injEq, Option.some.injEq] at h
      exact h.2.1.symm
    | ok m =>
      rw [ht] at h
      cases hd : m.Data[0]? with
      | none => simp [hd] at h
      | some d0 =>
        simp only [hd] at h
        by_cases hc : d0.val < 0x1F ∨ d0.val > 0x7E
        · rw [if_pos hc] at h
          simp at h
        · rw [if_neg hc] at h
          exact ih h

theorem readerCall_ok0 {t : Transport} {addr : Byte} {info : PMBusInfo} {mode : Byte}
    {log log' : List MasterRequest} {v : GoString}
    (h : GetPMBusSerial t addr log = (log', some (v, none)))
    (hv : v = info.SerialNumber) :
    readerCall t addr info mode 0 log = (log', some (true, none)) := by
  simp only [readerCall]
  exact checked_ok h (decide_eq_true hv)

theorem readerCall_err0 {t : Transport} {addr : Byte} {info : PMBusInfo} {mode : Byte}
    {log log' : List MasterRequest} {v : GoString} {e : Error}
    (h : GetPMBusSerial t addr log = (log', some (v, some e))) :
    ∃ b, readerCall t addr info mode 0 log = (log', some (b, some e)) := by
  simp only [readerCall]
  exact ⟨_, checked_err _ h⟩

theorem readerCall_ok1 {t : Transport} {addr : Byte} {info : PMBusInfo} {mode : Byte}
    {log log' : List MasterRequest} {v : GoString}
    (h : GetPMBusModelNumber t addr log = (log', some (v, none)))
    (hv : v = info.ModuleNumber) :
    readerCall t addr info mode 1 log = (log', some (true, none)) := by
  simp only [readerCall]
  exact checked_ok h (decide_eq_true hv)

theorem readerCall_err1 {t : Transport} {addr : Byte} {info : PMBusInfo} {mode : Byte}
    {log log' : List MasterRequest} {v : GoString} {e : Error}
    (h : GetPMBusModelNumber t addr log = (log', some (v, some e))) :
    ∃ b, readerCall t addr info mode 1 log = (log', some (b, some e)) := by
  simp only [readerCall]
  exact ⟨_, checked_err _ h⟩

theorem readerCall_ok2 {t : Transport} {addr : Byte} {info : PMBusInfo} {mode : Byte}
    {log log' : List MasterRequest} {v : GoString}
    (h : GetPMBusRevisionNumber t addr log = (log', some (v, none)))
    (hv : v = info.Revision) :
    readerCall t addr info mode 2 log = (log', some (true, none)) := by
  simp only [readerCall]
  exact checked_ok h (decide_eq_true hv)

theorem readerCall_err2 {t : Transport} {addr : Byte} {info : PMBusInfo} {mode : Byte}
    {log log' : List MasterRequest} {v : GoString} {e : Error}
    (h : GetPMBusRevisionNumber t addr log = (log', some (v, some e))) :
    ∃ b, readerCall t addr info mode 2 log = (log', some (b, some e)) := by
  simp only [readerCall]
  exact ⟨_, checked_err _ h⟩

theorem readerCall_ok3 {t : Transport} {addr : Byte} {info : PMBusInfo} {mode : Byte}
    {log log' : List MasterRequest} {v : Byte}
    (h : GetPMBusRevision t addr log = (log', some (v, none)))
    (hv : v = info.PmbusRevision) :
    readerCall t addr info mode 3 log = (log', some (true, none)) := by
  simp only [readerCall]
  exact checked_ok h (decide_eq_true hv)

theorem readerCall_err3 {t : Transport} {addr : Byte} {info : PMBusInfo} {mode : Byte}
    {log log' : List MasterRequest} {v : Byte} {e : Error}
    (h : GetPMBusRevision t addr log = (log', some (v, some e))) :
    ∃ b, readerCall t addr info mode 3 log = (log', some (b, some e)) := by
  simp only [readerCall]
  exact ⟨_, checked_err _ h⟩

theorem readerCall_ok4 {t : Transport} {addr : Byte} {info : PMBusInfo} {mode : Byte}
    {log log' : List MasterRequest} {v : GoString}
    (h : GetPMBusCurrentSharingControl t addr log = (log', some (v, none)))
    (hv : v = info.CurSharingCtl) :
    readerCall t addr info mode 4 log = (log', some (true, none)) := by
  simp only [readerCall]
  exact checked_ok h (decide_eq_true hv)

theorem readerCall_err4 {t : Transport} {addr : Byte} {info : PMBusInfo} {mode : Byte}
    {log log' : List MasterRequest} {v : GoString} {e : Error}
    (h : GetPMBusCurrentSharingControl t addr log = (log', some (v, some e))) :
    ∃ b, readerCall t addr info mode 4 log = (log', some (b, some e)) := by
  simp only [readerCall]
  exact ⟨_, checked_err _ h⟩

theorem readerCall_ok5 {t : Transport} {addr : Byte} {info : PMBusInfo} {mode : Byte}
    {log log' : List MasterRequest} {v : Byte}
    (h : GetPMBusVOutMode t addr log = (log', some (v, none)))
    (hv : v = mode) :
    readerCall t addr info mode 5 log = (log', some (true, none)) := by
  simp only [readerCall]
  exact checked_ok h (decide_eq_true hv)

theorem readerCall_err5 {t : Transport} {addr : Byte} {info : PMBusInfo} {mode : Byte}
    {log log' : List MasterRequest} {v : Byte} {e : Error}
    (h : GetPMBusVOutMode t addr log = (log', some (v, some e))) :
    ∃ b, readerCall t addr info mode 5 log = (log', some (b, some e)) := by
  simp only [readerCall]
  exact ⟨_, checked_err _ h⟩

theorem readerCall_ok6 {t : Transport} {addr : Byte} {info : PMBusInfo} {mode : Byte}
    {log log' : List MasterRequest} {v : Byte}
    (h : GetPMBusStatus t addr log = (log', some (v, none)))
    (hv : decodeStatus info.ModuleNumber addr v [] = info.Status) :
    readerCall t addr info mode 6 log = (log', some (true, none)) := by
  simp only [readerCall]
  exact checked_ok h (decide_eq_true hv)

theorem readerCall_err6 {t : Transport} {addr : Byte} {info : PMBusInfo} {mode : Byte}
    {log log' : List MasterRequest} {v : Byte} {e : Error}
    (h : GetPMBusStatus t addr log = (log', some (v, some e))) :
    ∃ b, readerCall t addr info mode 6 log = (log', some (b, some e)) := by
  simp only [readerCall]
  exact ⟨_, checked_err _ h⟩

theorem readerCall_ok7 {t : Transport} {addr : Byte} {info : PMBusInfo} {mode : Byte}
    {log log' : List MasterRequest} {v : ℚ}
    (h : GetPMBusACInputVoltage t addr log = (log', some (v, none)))
    (hv : v = info.InputVoltage) :
    readerCall t addr info mode 7 log = (log', some (true, none)) := by
  simp only [readerCall]
  exact checked_ok h (decide_eq_true hv)

theorem readerCall_err7 {t : Transport} {addr : Byte} {info : PMBusInfo} {mode : Byte}
    {log log' : List MasterRequest} {v : ℚ} {e : Error}
    (h : GetPMBusACInputVoltage t addr log = (log', some (v, some e))) :
    ∃ b, readerCall t addr info mode 7 log = (log', some (b, some e)) := by
  simp only [readerCall]
  exact ⟨_, checked_err _ h⟩

theorem readerCall_ok8 {t : Transport} {addr : Byte} {info : PMBusInfo} {mode : Byte}
    {log log' : List MasterRequest} {v : ℚ}
    (h : GetPMBusACInputCurrent t addr log = (log', some (v, none)))
    (hv : v = info.InputCurrent) :
    readerCall t addr info mode 8 log = (log', some (true, none)) := by
  simp only [readerCall]
  exact checked_ok h (decide_eq_true hv)

theorem readerCall_err8 {t : Transport} {addr : Byte} {info : PMBusInfo} {mode : Byte}
    {log log' : List MasterRequest} {v : ℚ} {e : Error}
    (h : GetPMBusACInputCurrent t addr log = (log', some (v, some e))) :
    ∃ b, readerCall t addr info mode 8 log = (log', some (b, some e)) := by
  simp only [readerCall]
  exact ⟨_, checked_err _ h⟩

theorem readerCall_ok9 {t : Transport} {addr : Byte} {info : PMBusInfo} {mode : Byte}
    {log log' : List MasterRequest} {v : ℚ}
    (h : GetPMBusDC12VOutputVoltage t addr mode log = (log', some (v, none)))
    (hv : v = info.OutputVoltage) :
    readerCall t addr info mode 9 log = (log', some (true, none)) := by
  simp only [readerCall]
  exact checked_ok h (decide_eq_true hv)

theorem readerCall_err9 {t : Transport} {addr : Byte} {info : PMBusInfo} {mode : Byte}
    {log log' : List MasterRequest} {v : ℚ} {e : Error}
    (h : GetPMBusDC12VOutputVoltage t addr mode log = (log', some (v, some e))) :
    ∃ b, readerCall t addr info mode 9 log = (log', some (b, some e)) := by
  simp only [readerCall]
  exact ⟨_, checked_err _ h⟩

theorem readerCall_ok10 {t : Transport} {addr : Byte} {info : PMBusInfo} {mode : Byte}
    {log log' : List MasterRequest} {v : ℚ}
    (h : GetPMBusDC12VOutputCurrent t addr log = (log', some (v, none)))
    (hv : v = info.OutputCurrent) :
    readerCall t addr info mode 10 log = (log', some (true, none)) := by
  simp only [readerCall]
  exact checked_ok h (decide_eq_true hv)

theorem readerCall_err10 {t : Transport} {addr : Byte} {info : PMBusInfo} {mode : Byte}
    {log log' : List MasterRequest} {v : ℚ} {e : Error}
    (h : GetPMBusDC12VOutputCurrent t addr log = (log', some (v, some e))) :
    ∃ b, readerCall t addr info mode 10 log = (log', some (b, some e)) := by
  simp only [readerCall]
  exact ⟨_, checked_err _ h⟩

theorem readerCall_ok11 {t : Transport} {addr : Byte} {info : PMBusInfo} {mode : Byte}
    {log log' : List MasterRequest} {v : ℚ}
    (h : GetPMBusTemperature1 t addr log = (log', some (v, none)))
    (hv : v = info.Temperature1) :
    readerCall t addr info mode 11 log = (log', some (true, none)) := by
  simp only [readerCall]
  exact checked_ok h (decide_eq_true hv)

theorem readerCall_err11 {t : Transport} {addr : Byte} {info : PMBusInfo} {mode : Byte}
    {log log' : List MasterRequest} {v : ℚ} {e : Error}
    (h : GetPMBusTemperature1 t addr log = (log', some (v, some e))) :
    ∃ b, readerCall t addr info mode 11 log = (log', some (b, some e)) := by
  simp only [readerCall]
  exact ⟨_, checked_err _ h⟩

theorem readerCall_ok12 {t : Transport} {addr : Byte} {info : PMBusInfo} {mode : Byte}
    {log log' : List MasterRequest} {v : ℚ}
    (h : GetPMBusTemperature2 t addr log = (log', some (v, none)))
    (hv : v = info.Temperature2) :
    readerCall t addr info mode 12 log = (log', some (true, none)) := by
  simp only [readerCall]
  exact checked_ok h (decide_eq_true hv)

theorem readerCall_err12 {t : Transport} {addr : Byte} {info : PMBusInfo} {mode : Byte}
    {log log' : List MasterRequest} {v : ℚ} {e : Error}
    (h : GetPMBusTemperature2 t addr log = (log', some (v, some e))) :
    ∃ b, readerCall t addr info mode 12 log = (log', some (b, some e)) := by
  simp only [readerCall]
  exact ⟨_, checked_err _ h⟩

theorem readerCall_ok13 {t : Transport} {addr : Byte} {info : PMBusInfo} {mode : Byte}
    {log log' : List MasterRequest} {v : ℚ}
    (h : GetPMBusFan1 t addr (isSMCOldPower info.ModuleNumber) log = (log', some (v, none)))
    (hv : v = info.Fan1) :
    readerCall t addr info mode 13 log = (log', some (true, none)) := by
  simp only [readerCall]
  exact checked_ok h (decide_eq_true hv)

theorem readerCall_err13 {t : Transport} {addr : Byte} {info : PMBusInfo} {mode : Byte}
    {log log' : List MasterRequest} {v : ℚ} {e : Error}
    (h : GetPMBusFan1 t addr (isSMCOldPower info.ModuleNumber) log = (log', some (v, some e))) :
    ∃ b, readerCall t addr info mode 13 log = (log', some (b, some e)) := by
  simp only [readerCall]
  exact ⟨_, checked_err _ h⟩

theorem readerCall_ok14 {t : Transport} {addr : Byte} {info : PMBusInfo} {mode : Byte}
    {log log' : List MasterRequest} {v : ℚ}
    (h : GetPMBusFan2 t addr (isSMCOldPower info.ModuleNumber) log = (log', some (v, none)))
    (hv : v = info.Fan2) :
    readerCall t addr info mode 14 log = (log', some (true, none)) := by
  simp only [readerCall]
  exact checked_ok h (decide_eq_true hv)

theorem readerCall_err14 {t : Transport} {addr : Byte} {info : PMBusInfo} {mode : Byte}
    {log log' : List MasterRequest} {v : ℚ} {e : Error}
    (h : GetPMBusFan2 t addr (isSMCOldPower info.ModuleNumber) log = (log', some (v, some e))) :
    ∃ b, readerCall t addr info mode 14 log = (log', some (b, some e)) := by
  simp only [readerCall]
  exact ⟨_, checked_err _ h⟩

theorem readerCall_ok15 {t : Transport} {addr : Byte} {info : PMBusInfo} {mode : Byte}
    {log log' : List MasterRequest} {v : ℚ}
    (h : GetPMBusACInputPower t addr log = (log', some (v, none)))
    (hv : v = info.InputPower) :
    readerCall t addr info mode 15 log = (log', some (true, none)) := by
  simp only [readerCall]
  exact checked_ok h (decide_eq_true hv)

theorem readerCall_err15 {t : Transport} {addr : Byte} {info : PMBusInfo} {mode : Byte}
    {log log' : List MasterRequest} {v : ℚ} {e : Error}
    (h : GetPMBusACInputPower t addr log = (log', some (v, some e))) :
    ∃ b, readerCall t addr info mode 15 log = (log', some (b, some e)) := by
  simp only [readerCall]
  exact ⟨_, checked_err _ h⟩

theorem readerCall_ok16 {t : Transport} {addr : Byte} {info : PMBusInfo} {mode : Byte}
    {log log' : List MasterRequest} {v : ℚ}
    (h : GetPMBusDC12VOutputPower t addr log = (log', some (v, none)))
    (hv : v = info.OutputPower) :
    readerCall t addr info mode 16 log = (log', some (true, none)) := by
  simp only [readerCall]
  exact checked_ok h (decide_eq_true hv)

theorem readerCall_err16 {t : Transport} {addr : Byte} {info : PMBusInfo} {mode : Byte}
    {log log' : List MasterRequest} {v : ℚ} {e : Error}
    (h : GetPMBusDC12VOutputPower t addr log = (log', some (v, some e))) :
    ∃ b, readerCall t addr info mode 16 log = (log', some (b, some e)) := by
  simp only [readerCall]
  exact ⟨_, checked_err _ h⟩

theorem GetPMBusInfo_error_inv {t : Transport} {addr : Byte} {log : List MasterRequest}
    {info : PMBusInfo} {e : Error}
    (h : GetPMBusInfo t addr [] = (log, some (info, some e))) :
    ∃ k mode, k ≤ 16 ∧ info = keepBefore k info ∧
      (∀ j, j < k → ∃ pre pre', pre' <+: log ∧
        readerCall t addr info mode j pre = (pre', some (true, none))) ∧
      ∃ pre b, readerCall t addr info mode k pre = (log, some (b, some e)) := by
  unfold GetPMBusInfo at h
  rcases readThen_inv h with ⟨v, hfail, hinfo⟩ | ⟨log1, v1, h0, h⟩
  · have hv := readBlock_err hfail
    subst hv
    subst hinfo
    have hq := readBlock_extends hfail
    refine ⟨0, 0, by decide, rfl, ?_, [], readerCall_err0 hfail⟩
    intro j hj
    exact absurd hj (Nat.not_lt_zero j)
  have hp0 := readBlock_extends h0
  rcases readThen_inv h with ⟨v, hfail, hinfo⟩ | ⟨log2, v2, h1, h⟩
  · have hv := readBlock_err hfail
    subst hv
    subst hinfo
    have hq := readBlock_extends hfail
    refine ⟨1, 0, by decide, rfl, ?_, log1, readerCall_err1 hfail⟩
    intro j hj
    interval_cases j
    · exact ⟨[], log1, hq, readerCall_ok0 h0 rfl⟩
  have hp1 := readBlock_extends h1
  rcases readThen_inv h with ⟨v, hfail, hinfo⟩ | ⟨log3, v3, h2, h⟩
  · have hv := readBlock_err hfail
    subst hv
    subst hinfo
    have hq := readBlock_extends hfail
    refine ⟨2, 0, by decide, rfl, ?_, log2, readerCall_err2 hfail⟩
    intro j hj
    interval_cases j
    · exact ⟨[], log1, hp1.trans (hq), readerCall_ok0 h0 rfl⟩
    · exact ⟨log1, log2, hq, readerCall_ok1 h1 rfl⟩
  have hp2 := readBlock_extends h2
  rcases readThen_inv h with ⟨v, hfail, hinfo⟩ | ⟨log4, v4, h3, h⟩
  · have hv := readValue_err hfail
    subst hv
    subst hinfo
    have hq := readValue_extends hfail
    refine ⟨3, 0, by decide, rfl, ?_, log3, readerCall_err3 hfail⟩
    intro j hj
    interval_cases j
    · exact ⟨[], log1, hp1.trans (hp2.trans (hq)), readerCall_ok0 h0 rfl⟩
    · exact ⟨log1, log2, hp2.trans (hq), readerCall_ok1 h1 rfl⟩
    · exact ⟨log2, log3, hq, readerCall_ok2 h2 rfl⟩
  have hp3 := readValue_extends h3
  rcases readThen_inv h with ⟨v, hfail, hinfo⟩ | ⟨log5, v5, h4, h⟩
  · have hv := readValue_err hfail
    subst hv
    subst hinfo
    have hq := readValue_extends hfail
    refine ⟨4, 0, by decide, rfl, ?_, log4, readerCall_err4 hfail⟩
    intro j hj
    interval_cases j
    · exact ⟨[], log1, hp1.trans (hp2.trans (hp3.trans (hq))), readerCall_ok0 h0 rfl⟩
    · exact ⟨log1, log2, hp2.trans (hp3.trans (hq)), readerCall_ok1 h1 rfl⟩
    · exact ⟨log2, log3, hp3.trans (hq), readerCall_ok2 h2 rfl⟩
    · exact ⟨log3, log4, hq, readerCall_ok3 h3 rfl⟩
  have hp4 := readValue_extends h4
  rcases readThen_inv h with ⟨v, hfail, hinfo⟩ | ⟨log6, v6, h5, h⟩
  · have hv := readValue_err hfail
    subst hv
    subst hinfo
    have hq := readValue_extends hfail
    refine ⟨5, 0, by decide, rfl, ?_, log5, readerCall_err5 hfail⟩
    intro j hj
    interval_cases j
    · exact ⟨[], log1, hp1.trans (hp2.trans (hp3.trans (hp4.trans (hq)))), readerCall_ok0 h0 rfl⟩
    · exact ⟨log1, log2, hp2.trans (hp3.trans (hp4.trans (hq))), readerCall_ok1 h1 rfl⟩
    · exact ⟨log2, log3, hp3.trans (hp4.trans (hq)), readerCall_ok2 h2 rfl⟩
    · exact ⟨log3, log4, hp4.trans (hq), readerCall_ok3 h3 rfl⟩
    · exact ⟨log4, log5, hq, readerCall_ok4 h4 rfl⟩
  have hp5 := readValue_extends h5
  rcases readThen_inv h with ⟨v, hfail, hinfo⟩ | ⟨log7, v7, h6, h⟩
  · have hv := readValue_err hfail
    subst hv
    subst hinfo
    have hq := readValue_extends hfail
    refine ⟨6, v6, by decide, rfl, ?_, log6, readerCall_err6 hfail⟩
    intro j hj
    interval_cases j
    · exact ⟨[], log1, hp1.trans (hp2.trans (hp3.trans (hp4.trans (hp5.trans (hq))))), readerCall_ok0 h0 rfl⟩
    · exact ⟨log1, log2, hp2.trans (hp3.trans (hp4.trans (hp5.trans (hq)))), readerCall_ok1 h1 rfl⟩
    · exact ⟨log2, log3, hp3.trans (hp4.trans (hp5.trans (hq))), readerCall_ok2 h2 rfl⟩
    · exact ⟨log3, log4, hp4.trans (hp5.trans (hq)), readerCall_ok3 h3 rfl⟩
    · exact ⟨log4, log5, hp5.trans (hq), readerCall_ok4 h4 rfl⟩
    · exact ⟨log5, log6, hq, readerCall_ok5 h5 rfl⟩
  have hp6 := readValue_extends h6
  rcases readThen_inv h with ⟨v, hfail, hinfo⟩ | ⟨log8, v8, h7, h⟩
  · have hv := readValue_err hfail
    subst hv
    subst hinfo
    have hq := readValue_extends hfail
    refine ⟨7, v6, by decide, rfl, ?_, log7, readerCall_err7 hfail⟩
    intro j hj
    interval_cases j
    · exact ⟨[], log1, hp1.trans (hp2.trans (hp3.trans (hp4.trans (hp5.trans (hp6.trans (hq)))))), readerCall_ok0 h0 rfl⟩
    · exact ⟨log1, log2, hp2.trans (hp3.trans (hp4.trans (hp5.trans (hp6.trans (hq))))), readerCall_ok1 h1 rfl⟩
    · exact ⟨log2, log3, hp3.trans (hp4.trans (hp5.trans (hp6.trans (hq)))), readerCall_ok2 h2 rfl⟩
    · exact ⟨log3, log4, hp4.trans (hp5.trans (hp6.trans (hq))), readerCall_ok3 h3 rfl⟩
    · exact ⟨log4, log5, hp5.trans (hp6.trans (hq)), readerCall_ok4 h4 rfl⟩
    · exact ⟨log5, log6, hp6.trans (hq), readerCall_ok5 h5 rfl⟩
    · exact ⟨log6, log7, hq, readerCall_ok6 h6 rfl⟩
  have hp7 := readValue_extends h7
  rcases readThen_inv h with ⟨v, hfail, hinfo⟩ | ⟨log9, v9, h8, h⟩
  · have hv := readValue_err hfail
    subst hv
    subst hinfo
    have hq := readValue_extends hfail
    refine ⟨8, v6, by decide, rfl, ?_, log8, readerCall_err8 hfail⟩
    intro j hj
    interval_cases j
    · exact ⟨[], log1, hp1.trans (hp2.trans (hp3.trans (hp4.trans (hp5.trans (hp6.trans (hp7.trans (hq))))))), readerCall_ok0 h0 rfl⟩
    · exact ⟨log1, log2, hp2.trans (hp3.trans (hp4.trans (hp5.trans (hp6.trans (hp7.trans (hq)))))), readerCall_ok1 h1 rfl⟩
    · exact ⟨log2, log3, hp3.trans (hp4.trans (hp5.trans (hp6.trans (hp7.trans (hq))))), readerCall_ok2 h2 rfl⟩
    · exact ⟨log3, log4, hp4.trans (hp5.trans (hp6.trans (hp7.trans (hq)))), readerCall_ok3 h3 rfl⟩
    · exact ⟨log4, log5, hp5.trans (hp6.trans (hp7.trans (hq))), readerCall_ok4 h4 rfl⟩
    · exact ⟨log5, log6, hp6.trans (hp7.trans (hq)), readerCall_ok5 h5 rfl⟩
    · exact ⟨log6, log7, hp7.trans (hq), readerCall_ok6 h6 rfl⟩
    · exact ⟨log7, log8, hq, readerCall_ok7 h7 rfl⟩
  have hp8 := readValue_extends h8
  rcases readThen_inv h with ⟨v, hfail, hinfo⟩ | ⟨log10, v10, h9, h⟩
  · have hv := readValue_err hfail
    subst hv
    subst hinfo
    have hq := readValue_extends hfail
    refine ⟨9, v6, by decide, rfl, ?_, log9, readerCall_err9 hfail⟩
    intro j hj
    interval_cases j
    · exact ⟨[], log1, hp1.trans (hp2.trans (hp3.trans (hp4.trans (hp5.trans (hp6.trans (hp7.trans (hp8.trans (hq)))))))), readerCall_ok0 h0 rfl⟩
    · exact ⟨log1, log2, hp2.trans (hp3.trans (hp4.trans (hp5.trans (hp6.trans (hp7.trans (hp8.trans (hq))))))), readerCall_ok1 h1 rfl⟩
    · exact ⟨log2, log3, hp3.trans (hp4.trans (hp5.trans (hp6.trans (hp7.trans (hp8.trans (hq)))))), readerCall_ok2 h2 rfl⟩
    · exact ⟨log3, log4, hp4.trans (hp5.trans (hp6.trans (hp7.trans (hp8.trans (hq))))), readerCall_ok3 h3 rfl⟩
    · exact ⟨log4, log5, hp5.trans (hp6.trans (hp7.trans (hp8.trans (hq)))), readerCall_ok4 h4 rfl⟩
    · exact ⟨log5, log6, hp6.trans (hp7.trans (hp8.trans (hq))), readerCall_ok5 h5 rfl⟩
    · exact ⟨log6, log7, hp7.trans (hp8.trans (hq)), readerCall_ok6 h6 rfl⟩
    · exact ⟨log7, log8, hp8.trans (hq), readerCall_ok7 h7 rfl⟩
    · exact ⟨log8, log9, hq, readerCall_ok8 h8 rfl⟩
  have hp9 := readValue_extends h9
  rcases readThen_inv h with ⟨v, hfail, hinfo⟩ | ⟨log11, v11, h10, h⟩
  · have hv := readValue_err hfail
    subst hv
    subst hinfo
    have hq := readValue_extends hfail
    refine ⟨10, v6, by decide, rfl, ?_, log10, readerCall_err10 hfail⟩
    intro j hj
    interval_cases j
    · exact ⟨[], log1, hp1.trans (hp2.trans (hp3.trans (hp4.trans (hp5.trans (hp6.trans (hp7.trans (hp8.trans (hp9.trans (hq))))))))), readerCall_ok0 h0 rfl⟩
    · exact ⟨log1, log2, hp2.trans (hp3.trans (hp4.trans (hp5.trans (hp6.trans (hp7.trans (hp8.trans (hp9.trans (hq)))))))), readerCall_ok1 h1 rfl⟩
    · exact ⟨log2, log3, hp3.trans (hp4.trans (hp5.trans (hp6.trans (hp7.trans (hp8.trans (hp9.trans (hq))))))), readerCall_ok2 h2 rfl⟩
    · exact ⟨log3, log4, hp4.trans (hp5.trans (hp6.trans (hp7.trans (hp8.trans (hp9.trans (hq)))))), readerCall_ok3 h3 rfl⟩
    · exact ⟨log4, log5, hp5.trans (hp6.trans (hp7.trans (hp8.trans (hp9.trans (hq))))), readerCall_ok4 h4 rfl⟩
    · exact ⟨log5, log6, hp6.trans (hp7.trans (hp8.trans (hp9.trans (hq)))), readerCall_ok5 h5 rfl⟩
    · exact ⟨log6, log7, hp7.trans (hp8.trans (hp9.trans (hq))), readerCall_ok6 h6 rfl⟩
    · exact ⟨log7, log8, hp8.trans (hp9.trans (hq)), readerCall_ok7 h7 rfl⟩
    · exact ⟨log8, log9, hp9.trans (hq), readerCall_ok8 h8 rfl⟩
    · exact ⟨log9, log10, hq, readerCall_ok9 h9 rfl⟩
  have hp10 := readValue_extends h10
  rcases readThen_inv h with ⟨v, hfail, hinfo⟩ | ⟨log12, v12, h11, h⟩
  · have hv := readValue_err hfail
    subst hv
    subst hinfo
    have hq := readValue_extends hfail
    refine ⟨11, v6, by decide, rfl, ?_, log11, readerCall_err11 hfail⟩
    intro j hj
    interval_cases j
    · exact ⟨[], log1, hp1.trans (hp2.trans (hp3.trans (hp4.trans (hp5.trans (hp6.trans (hp7.trans (hp8.trans (hp9.trans (hp10.trans (hq)))))))))), readerCall_ok0 h0 rfl⟩
    · exact ⟨log1, log2, hp2.trans (hp3.trans (hp4.trans (hp5.trans (hp6.trans (hp7.trans (hp8.trans (hp9.trans (hp10.trans (hq))))))))), readerCall_ok1 h1 rfl⟩
    · exact ⟨log2, log3, hp3.trans (hp4.trans (hp5.trans (hp6.trans (hp7.trans (hp8.trans (hp9.trans (hp10.trans (hq)))))))), readerCall_ok2 h2 rfl⟩
    · exact ⟨log3, log4, hp4.trans (hp5.trans (hp6.trans (hp7.trans (hp8.trans (hp9.trans (hp10.trans (hq))))))), readerCall_ok3 h3 rfl⟩
    · exact ⟨log4, log5, hp5.trans (hp6.trans (hp7.trans (hp8.trans (hp9.trans (hp10.trans (hq)))))), readerCall_ok4 h4 rfl⟩
    · exact ⟨log5, log6, hp6.trans (hp7.trans (hp8.trans (hp9.trans (hp10.trans (hq))))), readerCall_ok5 h5 rfl⟩
    · exact ⟨log6, log7, hp7.trans (hp8.trans (hp9.trans (hp10.trans (hq)))), readerCall_ok6 h6 rfl⟩
    · exact ⟨log7, log8, hp8.trans (hp9.trans (hp10.trans (hq))), readerCall_ok7 h7 rfl⟩
    · exact ⟨log8, log9, hp9.trans (hp10.trans (hq)), readerCall_ok8 h8 rfl⟩
    · exact ⟨log9, log10, hp10.trans (hq), readerCall_ok9 h9 rfl⟩
    · exact ⟨log10, log11, hq, readerCall_ok10 h10 rfl⟩
  have hp11 := readValue_extends h11
  rcases readThen_inv h with ⟨v, hfail, hinfo⟩ | ⟨log13, v13, h12, h⟩
  · have hv := readValue_err hfail
    subst hv
    subst hinfo
    have hq := readValue_extends hfail
    refine ⟨12, v6, by decide, rfl, ?_, log12, readerCall_err12 hfail⟩
    intro j hj
    interval_cases j
    · exact ⟨[], log1, hp1.trans (hp2.trans (hp3.trans (hp4.trans (hp5.trans (hp6.trans (hp7.trans (hp8.trans (hp9.trans (hp10.trans (hp11.trans (hq))))))))))), readerCall_ok0 h0 rfl⟩
    · exact ⟨log1, log2, hp2.trans (hp3.trans (hp4.trans (hp5.trans (hp6.trans (hp7.trans (hp8.trans (hp9.trans (hp10.trans (hp11.trans (hq)))))))))), readerCall_ok1 h1 rfl⟩
    · exact ⟨log2, log3, hp3.trans (hp4.trans (hp5.trans (hp6.trans (hp7.trans (hp8.trans (hp9.trans (hp10.trans (hp11.trans (hq))))))))), readerCall_ok2 h2 rfl⟩
    · exact ⟨log3, log4, hp4.trans (hp5.trans (hp6.trans (hp7.trans (hp8.trans (hp9.trans (hp10.trans (hp11.trans (hq)))))))), readerCall_ok3 h3 rfl⟩
    · exact ⟨log4, log5, hp5.trans (hp6.trans (hp7.trans (hp8.trans (hp9.trans (hp10.trans (hp11.trans (hq))))))), readerCall_ok4 h4 rfl⟩
    · exact ⟨log5, log6, hp6.trans (hp7.trans (hp8.trans (hp9.trans (hp10.trans (hp11.trans (hq)))))), readerCall_ok5 h5 rfl⟩
    · exact ⟨log6, log7, hp7.trans (hp8.trans (hp9.trans (hp10.trans (hp11.trans (hq))))), readerCall_ok6 h6 rfl⟩
    · exact ⟨log7, log8, hp8.trans (hp9.trans (hp10.trans (hp11.trans (hq)))), readerCall_ok7 h7 rfl⟩
    · exact ⟨log8, log9, hp9.trans (hp10.trans (hp11.trans (hq))), readerCall_ok8 h8 rfl⟩
    · exact ⟨log9, log10, hp10.trans (hp11.trans (hq)), readerCall_ok9 h9 rfl⟩
    · exact ⟨log10, log11, hp11.trans (hq), readerCall_ok10 h10 rfl⟩
    · exact ⟨log11, log12, hq, readerCall_ok11 h11 rfl⟩
  have hp12 := readValue_extends h12
  rcases readThen_inv h with ⟨v, hfail, hinfo⟩ | ⟨log14, v14, h13, h⟩
  · have hv := readValue_err hfail
    subst hv
    subst hinfo
    have hq := readValue_extends hfail
    refine ⟨13, v6, by decide, rfl, ?_, log13, readerCall_err13 hfail⟩
    intro j hj
    interval_cases j
    · exact ⟨[], log1, hp1.trans (hp2.trans (hp3.trans (hp4.trans (hp5.trans (hp6.trans (hp7.trans (hp8.trans (hp9.trans (hp10.trans (hp11.trans (hp12.trans (hq)))))))))))), readerCall_ok0 h0 rfl⟩
    · exact ⟨log1, log2, hp2.trans (hp3.trans (hp4.trans (hp5.trans (hp6.trans (hp7.trans (hp8.trans (hp9.trans (hp10.trans (hp11.trans (hp12.trans (hq))))))))))), readerCall_ok1 h1 rfl⟩
    · exact ⟨log2, log3, hp3.trans (hp4.trans (hp5.trans (hp6.trans (hp7.trans (hp8.trans (hp9.trans (hp10.trans (hp11.trans (hp12.trans (hq)))))))))), readerCall_ok2 h2 rfl⟩
    · exact ⟨log3, log4, hp4.trans (hp5.trans (hp6.trans (hp7.trans (hp8.trans (hp9.trans (hp10.trans (hp11.trans (hp12.trans (hq))))))))), readerCall_ok3 h3 rfl⟩
    · exact ⟨log4, log5, hp5.trans (hp6.trans (hp7.trans (hp8.trans (hp9.trans (hp10.trans (hp11.trans (hp12.trans (hq)))))))), readerCall_ok4 h4 rfl⟩
    · exact ⟨log5, log6, hp6.trans (hp7.trans (hp8.trans (hp9.trans (hp10.trans (hp11.trans (hp12.trans (hq))))))), readerCall_ok5 h5 rfl⟩
    · exact ⟨log6, log7, hp7.trans (hp8.trans (hp9.trans (hp10.trans (hp11.trans (hp12.trans (hq)))))), readerCall_ok6 h6 rfl⟩
    · exact ⟨log7, log8, hp8.trans (hp9.trans (hp10.trans (hp11.trans (hp12.trans (hq))))), readerCall_ok7 h7 rfl⟩
    · exact ⟨log8, log9, hp9.trans (hp10.trans (hp11.trans (hp12.trans (hq)))), readerCall_ok8 h8 rfl⟩
    · exact ⟨log9, log10, hp10.trans (hp11.trans (hp12.trans (hq))), readerCall_ok9 h9 rfl⟩
    · exact ⟨log10, log11, hp11.trans (hp12.trans (hq)), readerCall_ok10 h10 rfl⟩
    · exact ⟨log11, log12, hp12.trans (hq), readerCall_ok11 h11 rfl⟩
    · exact ⟨log12, log13, hq, readerCall_ok12 h12 rfl⟩
  have hp13 := readValue_extends h13
  rcases readThen_inv h with ⟨v, hfail, hinfo⟩ | ⟨log15, v15, h14, h⟩
  · have hv := readValue_err hfail
    subst hv
    subst hinfo
    have hq := readValue_extends hfail
    refine ⟨14, v6, by decide, rfl, ?_, log14, readerCall_err14 hfail⟩
    intro j hj
    interval_cases j
    · exact ⟨[], log1, hp1.trans (hp2.trans (hp3.trans (hp4.trans (hp5.trans (hp6.trans (hp7.trans (hp8.trans (hp9.trans (hp10.trans (hp11.trans (hp12.trans (hp13.trans (hq))))))))))))), readerCall_ok0 h0 rfl⟩
    · exact ⟨log1, log2, hp2.trans (hp3.trans (hp4.trans (hp5.trans (hp6.trans (hp7.trans (hp8.trans (hp9.trans (hp10.trans (hp11.trans (hp12.trans (hp13.trans (hq)))))))))))), readerCall_ok1 h1 rfl⟩
    · exact ⟨log2, log3, hp3.trans (hp4.trans (hp5.trans (hp6.trans (hp7.trans (hp8.trans (hp9.trans (hp10.trans (hp11.trans (hp12.trans (hp13.trans (hq))))))))))), readerCall_ok2 h2 rfl⟩
    · exact ⟨log3, log4, hp4.trans (hp5.trans (hp6.trans (hp7.trans (hp8.trans (hp9.trans (hp10.trans (hp11.trans (hp12.trans (hp13.trans (hq)))))))))), readerCall_ok3 h3 rfl⟩
    · exact ⟨log4, log5, hp5.trans (hp6.trans (hp7.trans (hp8.trans (hp9.trans (hp10.trans (hp11.trans (hp12.trans (hp13.trans (hq))))))))), readerCall_ok4 h4 rfl⟩
    · exact ⟨log5, log6, hp6.trans (hp7.trans (hp8.trans (hp9.trans (hp10.trans (hp11.trans (hp12.trans (hp13.trans (hq)))))))), readerCall_ok5 h5 rfl⟩
    · exact ⟨log6, log7, hp7.trans (hp8.trans (hp9.trans (hp10.trans (hp11.trans (hp12.trans (hp13.trans (hq))))))), readerCall_ok6 h6 rfl⟩
    · exact ⟨log7, log8, hp8.trans (hp9.trans (hp10.trans (hp11.trans (hp12.trans (hp13.trans (hq)))))), readerCall_ok7 h7 rfl⟩
    · exact ⟨log8, log9, hp9.trans (hp10.trans (hp11.trans (hp12.trans (hp13.trans (hq))))), readerCall_ok8 h8 rfl⟩
    · exact ⟨log9, log10, hp10.trans (hp11.trans (hp12.trans (hp13.trans (hq)))), readerCall_ok9 h9 rfl⟩
    · exact ⟨log10, log11, hp11.trans (hp12.trans (hp13.trans (hq))), readerCall_ok10 h10 rfl⟩
    · exact ⟨log11, log12, hp12.trans (hp13.trans (hq)), readerCall_ok11 h11 rfl⟩
    · exact ⟨log12, log13, hp13.trans (hq), readerCall_ok12 h12 rfl⟩
    · exact ⟨log13, log14, hq, readerCall_ok13 h13 rfl⟩
  have hp14 := readValue_extends h14
  rcases readThen_inv h with ⟨v, hfail, hinfo⟩ | ⟨log16, v16, h15, h⟩
  · have hv := readValue_err hfail
    subst hv
    subst hinfo
    have hq := readValue_extends hfail
    refine ⟨15, v6, by decide, rfl, ?_, log15, readerCall_err15 hfail⟩
    intro j hj
    interval_cases j
    · exact ⟨[], log1, hp1.trans (hp2.trans (hp3.trans (hp4.trans (hp5.trans (hp6.trans (hp7.trans (hp8.trans (hp9.trans (hp10.trans (hp11.trans (hp12.trans (hp13.trans (hp14.trans (hq)))))))))))))), readerCall_ok0 h0 rfl⟩
    · exact ⟨log1, log2, hp2.trans (hp3.trans (hp4.trans (hp5.trans (hp6.trans (hp7.trans (hp8.trans (hp9.trans (hp10.trans (hp11.trans (hp12.trans (hp13.trans (hp14.trans (hq))))))))))))), readerCall_ok1 h1 rfl⟩
    · exact ⟨log2, log3, hp3.trans (hp4.trans (hp5.trans (hp6.trans (hp7.trans (hp8.trans (hp9.trans (hp10.trans (hp11.trans (hp12.trans (hp13.trans (hp14.trans (hq)))))))))))), readerCall_ok2 h2 rfl⟩
    · exact ⟨log3, log4, hp4.trans (hp5.trans (hp6.trans (hp7.trans (hp8.trans (hp9.trans (hp10.trans (hp11.trans (hp12.trans (hp13.trans (hp14.trans (hq))))))))))), readerCall_ok3 h3 rfl⟩
    · exact ⟨log4, log5, hp5.trans (hp6.trans (hp7.trans (hp8.trans (hp9.trans (hp10.trans (hp11.trans (hp12.trans (hp13.trans (hp14.trans (hq)))))))))), readerCall_ok4 h4 rfl⟩
    · exact ⟨log5, log6, hp6.trans (hp7.trans (hp8.trans (hp9.trans (hp10.trans (hp11.trans (hp12.trans (hp13.trans (hp14.trans (hq))))))))), readerCall_ok5 h5 rfl⟩
    · exact ⟨log6, log7, hp7.trans (hp8.trans (hp9.trans (hp10.trans (hp11.trans (hp12.trans (hp13.trans (hp14.trans (hq)))))))), readerCall_ok6 h6 rfl⟩
    · exact ⟨log7, log8, hp8.trans (hp9.trans (hp10.trans (hp11.trans (hp12.trans (hp13.trans (hp14.trans (hq))))))), readerCall_ok7 h7 rfl⟩
    · exact ⟨log8, log9, hp9.trans (hp10.trans (hp11.trans (hp12.trans (hp13.trans (hp14.trans (hq)))))), readerCall_ok8 h8 rfl⟩
    · exact ⟨log9, log10, hp10.trans (hp11.trans (hp12.trans (hp13.trans (hp14.trans (hq))))), readerCall_ok9 h9 rfl⟩
    · exact ⟨log10, log11, hp11.trans (hp12.trans (hp13.trans (hp14.trans (hq)))), readerCall_ok10 h10 rfl⟩
    · exact ⟨log11, log12, hp12.trans (hp13.trans (hp14.trans (hq))), readerCall_ok11 h11 rfl⟩
    · exact ⟨log12, log13, hp13.trans (hp14.trans (hq)), readerCall_ok12 h12 rfl⟩
    · exact ⟨log13, log14, hp14.trans (hq), readerCall_ok13 h13 rfl⟩
    · exact ⟨log14, log15, hq, readerCall_ok14 h14 rfl⟩
  have hp15 := readValue_extends h15
  rcases readThen_inv h with ⟨v, hfail, hinfo⟩ | ⟨log17, v17, h16, h⟩
  · have hv := readValue_err hfail
    subst hv
    subst hinfo
    have hq := readValue_extends hfail
    refine ⟨16, v6, by decide, rfl, ?_, log16, readerCall_err16 hfail⟩
    intro j hj
    interval_cases j
    · exact ⟨[], log1, hp1.trans (hp2.trans (hp3.trans (hp4.trans (hp5.trans (hp6.trans (hp7.trans (hp8.trans (hp9.trans (hp10.trans (hp11.trans (hp12.trans (hp13.trans (hp14.trans (hp15.trans (hq))))))))))))))), readerCall_ok0 h0 rfl⟩
    · exact ⟨log1, log2, hp2.trans (hp3.trans (hp4.trans (hp5.trans (hp6.trans (hp7.trans (hp8.trans (hp9.trans (hp10.trans (hp11.trans (hp12.trans (hp13.trans (hp14.trans (hp15.trans (hq)))))))))))))), readerCall_ok1 h1 rfl⟩
    · exact ⟨log2, log3, hp3.trans (hp4.trans (hp5.trans (hp6.trans (hp7.trans (hp8.trans (hp9.trans (hp10.trans (hp11.trans (hp12.trans (hp13.trans (hp14.trans (hp15.trans (hq))))))))))))), readerCall_ok2 h2 rfl⟩
    · exact ⟨log3, log4, hp4.trans (hp5.trans (hp6.trans (hp7.trans (hp8.trans (hp9.trans (hp10.trans (hp11.trans (hp12.trans (hp13.trans (hp14.trans (hp15.trans (hq)))))))))))), readerCall_ok3 h3 rfl⟩
    · exact ⟨log4, log5, hp5.trans (hp6.trans (hp7.trans (hp8.trans (hp9.trans (hp10.trans (hp11.trans (hp12.trans (hp13.trans (hp14.trans (hp15.trans (hq))))))))))), readerCall_ok4 h4 rfl⟩
    · exact ⟨log5, log6, hp6.trans (hp7.trans (hp8.trans (hp9.trans (hp10.trans (hp11.trans (hp12.trans (hp13.trans (hp14.trans (hp15.trans (hq)))))))))), readerCall_ok5 h5 rfl⟩
    · exact ⟨log6, log7, hp7.trans (hp8.trans (hp9.trans (hp10.trans (hp11.trans (hp12.trans (hp13.trans (hp14.trans (hp15.trans (hq))))))))), readerCall_ok6 h6 rfl⟩
    · exact ⟨log7, log8, hp8.trans (hp9.trans (hp10.trans (hp11.trans (hp12.trans (hp13.trans (hp14.trans (hp15.trans (hq)))))))), readerCall_ok7 h7 rfl⟩
    · exact ⟨log8, log9, hp9.trans (hp10.trans (hp11.trans (hp12.trans (hp13.trans (hp14.trans (hp15.trans (hq))))))), readerCall_ok8 h8 rfl⟩
    · exact ⟨log9, log10, hp10.trans (hp11.trans (hp12.trans (hp13.trans (hp14.trans (hp15.trans (hq)))))), readerCall_ok9 h9 rfl⟩
    · exact ⟨log10, log11, hp11.trans (hp12.trans (hp13.trans (hp14.trans (hp15.trans (hq))))), readerCall_ok10 h10 rfl⟩
    · exact ⟨log11, log12, hp12.trans (hp13.trans (hp14.trans (hp15.trans (hq)))), readerCall_ok11 h11 rfl⟩
    · exact ⟨log12, log13, hp13.trans (hp14.trans (hp15.trans (hq))), readerCall_ok12 h12 rfl⟩
    · exact ⟨log13, log14, hp14.trans (hp15.trans (hq)), readerCall_ok13 h13 rfl⟩
    · exact ⟨log14, log15, hp15.trans (hq), readerCall_ok14 h14 rfl⟩
    · exact ⟨log15, log16, hq, readerCall_ok15 h15 rfl⟩
  have hp16 := readValue_extends h16
  simp at h

/-- C11, the claim as stated fails: against a transport whose read of
sub-address `0x8B` fails, `GetPMBusInfo` returns the error together with a
record that holds the model number, the current-sharing text and the status
list read before the failure, not the zero record. -/
theorem GetPMBusInfo_error_not_zero_record :
    (GetPMBusInfo (failingTransport (lit "PWS-721P") 0x01 0x8B 5) 0x58 []).2 =
      some (exampleInfo (lit "PWS-721P") [lit "OK"], some (Error.transport 5)) ∧
    exampleInfo (lit "PWS-721P") [lit "OK"] ≠ {} := by
  constructor
  · decide!
  · decide!

/-- C11, amended: when `GetPMBusInfo` returns an error `e`, the record returned
with it is the record as filled in up to the failure: for the position `k` of
the reader call that failed with `e` (the last call of the run), the field of
that call and of every later call is zero, and the field of every earlier call
holds the value that call returned in this run; the record is the zero record
when the first call (the serial-number block) fails. -/
theorem GetPMBusInfo_error_partial_record (t : Transport) (addr : Byte) (info : PMBusInfo)
    (e : Error) (h : (GetPMBusInfo t addr []).2 = some (info, some e)) :
    ∃ k mode, k ≤ 16 ∧ info = keepBefore k info ∧
      (∀ j, j < k → ∃ pre pre', pre' <+: (GetPMBusInfo t addr []).1 ∧
        readerCall t addr info mode j pre = (pre', some (true, none))) ∧
      (∃ pre b, readerCall t addr info mode k pre =
        ((GetPMBusInfo t addr []).1, some (b, some e))) ∧
      (k = 0 → info = {}) := by
  have hrun : GetPMBusInfo t addr [] = ((GetPMBusInfo t addr []).1, some (info, some e)) := by
    rw [← h]
  obtain ⟨k, mode, hk, hkeep, hdone, hfail⟩ := GetPMBusInfo_error_inv hrun
  refine ⟨k, mode, hk, hkeep, hdone, hfail, ?_⟩
  intro h0
  subst h0
  rw [hkeep]
  rfl

/-- Witness of C11 as amended: the read of sub-address `0x8B` fails with error
5; the record returned holds what the earlier calls read. -/
theorem GetPMBusInfo_error_partial_record_witness :
    ∃ k mode, k ≤ 16 ∧ (exampleInfo (lit "PWS-721P") [lit "OK"]) = keepBefore k (exampleInfo (lit "PWS-721P") [lit "OK"]) ∧
      (∀ j, j < k → ∃ pre pre', pre' <+: (GetPMBusInfo (failingTransport (lit "PWS-721P") 0x01 0x8B 5) 0x58 []).1 ∧
        readerCall (failingTransport (lit "PWS-721P") 0x01 0x8B 5) 0x58 (exampleInfo (lit "PWS-721P") [lit "OK"]) mode j pre = (pre', some (true, none))) ∧
      (∃ pre b, readerCall (failingTransport (lit "PWS-721P") 0x01 0x8B 5) 0x58 (exampleInfo (lit "PWS-721P") [lit "OK"]) mode k pre =
        ((GetPMBusInfo (failingTransport (lit "PWS-721P") 0x01 0x8B 5) 0x58 []).1, some (b, some (Error.transport 5)))) ∧
      (k = 0 → (exampleInfo (lit "PWS-721P") [lit "OK"]) = {}) :=
  GetPMBusInfo_error_partial_record (failingTransport (lit "PWS-721P") 0x01 0x8B 5) 0x58 (exampleInfo (lit "PWS-721P") [lit "OK"]) (Error.transport 5) (by decide!)


end Ipmi
